import Mathlib

/-!
Verification of BrighterMerchant's route-optimization engine
(`src/algorithm/pathfinder.ts`) and reconciliation state machine
(the OCRProcessor in the electron demo).

The pathfinder is embedded shallowly: JS numbers become `ℚ` (times are
fractional seconds summed exactly), the priority queue becomes a list kept
sorted by distance, the `visited` string-keyed Map becomes an association
list keyed structurally by (node, status vector) (the JS key
`node + "-" + states` is injective in these components for a fixed
bounty-list length), and the unbounded `while` loop takes a fuel argument.

The bounty catalog (`bounties.ts`), the location graph (`nodes.ts`) and the
`GPS` distance oracle are referenced by the pathfinder but their modules are
not part of the sources under verification, so the catalog, the two portals
and the oracle are threaded as parameters, exactly as `gps` itself is a
parameter of `findBestRoute` in the source.
-/

namespace BrighterMerchant

/-- Location-graph node identifier. -/
abbrev Node := ℕ

/-- Bounty identifiers are the string keys of the catalog (`CARROTS`, ...). -/
abbrev BountyId := String

/-- `BountyStatus` from `bounties.ts`: NOT_STARTED = 0, IN_PROGRESS = 1,
COMPLETED = 2. -/
inductive BountyStatus where
  | notStarted
  | inProgress
  | completed
deriving DecidableEq, Repr

/-- A market reference: `{ node, name }` as used by `bounties.ts` entries. -/
structure MarketRef where
  node : Node
  name : String
deriving DecidableEq, Repr

/-- One catalog entry: `bounties[key] = { name, level, kp, seller, buyer }`
(we keep the fields the pathfinder reads). -/
structure BountyDef where
  name : String
  kp : ℚ
  seller : MarketRef
  buyer : MarketRef
deriving DecidableEq, Repr

/-- A teleport portal from `nodes.ts`: `{ node, name, teleportTime }`. -/
structure Portal where
  node : Node
  name : String
  teleportTime : ℚ
deriving DecidableEq, Repr

/-- Result of `gps.distance(from, to)`: `{ distance, path }`. -/
structure GPSResult where
  distance : ℚ
  path : List Node
deriving DecidableEq, Repr

/-- The distance oracle, as the pathfinder consumes it. -/
abbrev GPSFun := Node → Node → GPSResult

/-- Static data the pathfinder closes over: the bounty catalog
(`bountyData`), the bounty board node, and the two portals named in
`#addTravelSteps` (`portals.CRENOPOLIS_MARKET`, `portals.CRENOPOLIS_OUTSKIRTS`). -/
structure SearchEnv where
  data : BountyId → BountyDef
  board : MarketRef
  portalMarket : Portal
  portalOutskirts : Portal

/-- Action types pushed by the pathfinder.  `walk` is unreachable because
the source fixes `includeWalkingSteps = false`; it is kept for fidelity. -/
inductive ActionType where
  | teleport
  | walk
  | buy
  | sell
  | ret
deriving DecidableEq, Repr

/-- An `Action`: `{ type, item?, location, distance }`. -/
structure Action where
  type : ActionType
  item : Option BountyId
  location : String
  distance : ℚ
deriving DecidableEq, Repr

/-- `timeToBuy = 3` (class field). -/
def timeToBuy : ℚ := 3

/-- `timeToSell = 4` (class field). -/
def timeToSell : ℚ := 4

/-- `inventorySpace = 24` (class field). -/
def inventorySpace : ℚ := 24

/-- `Number.MAX_SAFE_INTEGER` (2^53 - 1), the default threshold. -/
def maxSafeInteger : ℚ := 9007199254740991

/-- Count of bounties currently IN_PROGRESS. -/
def countInProgress (sts : List BountyStatus) : ℕ :=
  (sts.filter (fun st => st = BountyStatus.inProgress)).length

/-- `#canPurchaseMoreItems`: start from `inventorySpace`, subtract 6 per
IN_PROGRESS bounty, and require at least 6 space left. -/
def canPurchaseMoreItems (sts : List BountyStatus) : Bool :=
  decide (inventorySpace - 6 * (countInProgress sts : ℚ) ≥ 6)

/-- `#deliveriesCompleted`: every status is COMPLETED. -/
def deliveriesCompleted (sts : List BountyStatus) : Bool :=
  sts.all (fun st => st = BountyStatus.completed)

/-- Distance recorded on the most recent action, `0` if there are none
(`actions.length > 0 ? actions[actions.length - 1].distance : 0`). -/
def lastActionDistance (acts : List Action) : ℚ :=
  ((acts.getLast?).map Action.distance).getD 0

/-- Interior of a path: the nodes strictly between start and end
(`for (let i = 1; i < path.length - 1; i++)`). -/
def pathInterior (path : List Node) : List Node :=
  (path.drop 1).dropLast

/-- The teleport actions injected for one travel segment: one per interior
portal node of the gps path, each at `base` + that portal's teleport time,
where `base` is the distance of the action preceding the injection. -/
def travelInjection (env : SearchEnv) (gps : GPSFun)
    (startNode : Option Node) (endNode : Node) (base : ℚ) : List Action :=
  match startNode with
  | none => []
  | some s =>
    let res := gps s endNode
    if res.path.length < 2 then []
    else
      (pathInterior res.path).filterMap (fun n =>
        if n = env.portalMarket.node then
          some ⟨ActionType.teleport, none, env.portalMarket.name,
            base + env.portalMarket.teleportTime⟩
        else if n = env.portalOutskirts.node then
          some ⟨ActionType.teleport, none, env.portalOutskirts.name,
            base + env.portalOutskirts.teleportTime⟩
        else none)

/-- `#addTravelSteps`: append a teleport action for each interior portal
node of the gps path, each at (last action distance) + that portal's
teleport time.  The source fixes `includeTeleportSteps = true` and
`includeWalkingSteps = false`, so the walk branch appends nothing.
The initial search state has `previousNode = null`; the catalog has no
seller or buyer at the bounty board so the source never reaches
`gps.distance(null, _)`; the `none` case appends nothing. -/
def addTravelSteps (env : SearchEnv) (gps : GPSFun) (acts : List Action)
    (startNode : Option Node) (endNode : Node) : List Action :=
  acts ++ travelInjection env gps startNode endNode (lastActionDistance acts)

/-- A search state on the priority queue: `{ distance, previousNode,
currentNode, bountyStates, actions }`. -/
structure RouteState where
  distance : ℚ
  previousNode : Option Node
  currentNode : Node
  bountyStates : List BountyStatus
  actions : List Action
deriving DecidableEq, Repr

/-- Accumulator for the sell/buy loops over the bounty list.  The source
walks the positionally aligned arrays `bounties` and `bountyStates`; the
embedding walks their zip, accumulating the already-processed
(id, status) pairs in order, together with the pending action list, the
running distance, and the `numItemsBought` / `numItemsSold` counters. -/
structure Proc where
  states : List (BountyId × BountyStatus)
  actions : List Action
  distance : ℚ
  nBought : ℕ
  nSold : ℕ
deriving Repr

/-- The sell loop: at the current node, sell every IN_PROGRESS bounty whose
buyer is here.  The first sell (or buy) at a stop injects travel steps.
Each sell costs `timeToSell` and marks the bounty COMPLETED. -/
def sellPhase (env : SearchEnv) (gps : GPSFun) (prev : Option Node)
    (cur : Node) : List (BountyId × BountyStatus) → Proc → Proc
  | [], acc => acc
  | (b, st) :: rem, acc =>
    if cur ≠ ((env.data b).buyer.node) then
      sellPhase env gps prev cur rem
        { acc with states := acc.states ++ [(b, st)] }
    else if st ≠ BountyStatus.inProgress then
      sellPhase env gps prev cur rem
        { acc with states := acc.states ++ [(b, st)] }
    else
      let acts0 := if acc.nBought + acc.nSold = 0 then
          addTravelSteps env gps acc.actions prev cur
        else acc.actions
      let dist1 := acc.distance + timeToSell
      sellPhase env gps prev cur rem
        { states := acc.states ++ [(b, BountyStatus.completed)]
          actions := acts0 ++
            [⟨ActionType.sell, some b, (env.data b).buyer.name, dist1⟩]
          distance := dist1
          nBought := acc.nBought
          nSold := acc.nSold + 1 }

/-- The buy loop: at the current node, buy every NOT_STARTED bounty whose
seller is here, breaking out as soon as `#canPurchaseMoreItems` fails on
the full current status vector.  The first buy at a stop costs `timeToBuy`;
further buys at the same stop are free. -/
def buyPhase (env : SearchEnv) (gps : GPSFun) (prev : Option Node)
    (cur : Node) : List (BountyId × BountyStatus) → Proc → Proc
  | [], acc => acc
  | (b, st) :: rem, acc =>
    if ¬ canPurchaseMoreItems
        (((acc.states ++ (b, st) :: rem).map Prod.snd)) then
      { acc with states := acc.states ++ (b, st) :: rem }
    else if cur ≠ ((env.data b).seller.node) then
      buyPhase env gps prev cur rem
        { acc with states := acc.states ++ [(b, st)] }
    else if st ≠ BountyStatus.notStarted then
      buyPhase env gps prev cur rem
        { acc with states := acc.states ++ [(b, st)] }
    else
      let acts0 := if acc.nBought + acc.nSold = 0 then
          addTravelSteps env gps acc.actions prev cur
        else acc.actions
      let dist1 := if acc.nBought = 0 then acc.distance + timeToBuy
        else acc.distance
      buyPhase env gps prev cur rem
        { states := acc.states ++ [(b, BountyStatus.inProgress)]
          actions := acts0 ++
            [⟨ActionType.buy, some b, (env.data b).seller.name, dist1⟩]
          distance := dist1
          nBought := acc.nBought + 1
          nSold := acc.nSold }

/-- Processing of one dequeued state: copy the arrays, run the sell loop,
then the buy loop. -/
def processStop (env : SearchEnv) (gps : GPSFun) (bounties : List BountyId)
    (s : RouteState) : Proc :=
  let p1 := sellPhase env gps s.previousNode s.currentNode
    (bounties.zip s.bountyStates) ⟨[], s.actions, s.distance, 0, 0⟩
  buyPhase env gps s.previousNode s.currentNode p1.states
    { p1 with states := [] }

/-- Insert into the priority queue (a list kept sorted by ascending
distance; the heap's tie order is unspecified, so equal keys go last). -/
def pqInsert (s : RouteState) : List RouteState → List RouteState
  | [] => [s]
  | x :: xs => if s.distance < x.distance then s :: x :: xs
    else x :: pqInsert s xs

/-- The visited map: structural key (node, status vector) → best distance;
newest binding first, first match wins (JS `Map.set` / `Map.get`). -/
abbrev Visited := List ((Node × List BountyStatus) × ℚ)

def visitedLookup (v : Visited) (k : Node × List BountyStatus) : Option ℚ :=
  ((v.find? (fun e => e.1 = k)).map Prod.snd)

/-- `visited.has(key) && visited.get(key) <= originalDistance`. -/
def visitedSkip (v : Visited) (k : Node × List BountyStatus) (d : ℚ) :
    Bool :=
  match visitedLookup v k with
  | none => false
  | some d0 => decide (d0 ≤ d)

/-- Enqueue one successor per target node, skipping any that would already
reach the best-known distance. -/
def enqueueTargets (gps : GPSFun) (dist : ℚ) (acts : List Action)
    (sts : List BountyStatus) (cur : Node) (best : ℚ)
    (targets : List Node) (pq : List RouteState) : List RouteState :=
  targets.foldl (fun q nextNode =>
    let newDistance := dist + (gps cur nextNode).distance
    if newDistance < best then
      pqInsert ⟨newDistance, some cur, nextNode, sts, acts⟩ q
    else q) pq

/-- Enqueue successor states: one per NOT_STARTED seller (only when more
items can be carried), then one per IN_PROGRESS buyer. -/
def enqueueSuccessors (env : SearchEnv) (gps : GPSFun) (dist : ℚ)
    (acts : List Action) (pairs : List (BountyId × BountyStatus))
    (cur : Node) (best : ℚ) (pq : List RouteState) : List RouteState :=
  let sts := pairs.map Prod.snd
  let pq1 :=
    if canPurchaseMoreItems sts then
      enqueueTargets gps dist acts sts cur best
        ((pairs.filter (fun p => p.2 = BountyStatus.notStarted)).map
          (fun p => (env.data p.1).seller.node)) pq
    else pq
  enqueueTargets gps dist acts sts cur best
    ((pairs.filter (fun p => p.2 = BountyStatus.inProgress)).map
      (fun p => (env.data p.1).buyer.node)) pq1

/-- `FindBestRouteResult`: `{ actions, distance }`. -/
structure RouteResult where
  actions : List Action
  distance : ℚ
deriving DecidableEq, Repr

/-- The main best-first loop of `findBestRoute`, with fuel for the
unbounded `while (pq.size() > 0)`.  Fuel exhaustion returns `none`
(indistinguishable from NotFound; every theorem quantifying over results
is stated for arbitrary fuel, and concrete runs use ample fuel). -/
def searchLoop (env : SearchEnv) (gps : GPSFun) (bounties : List BountyId)
    (roundTrip : Bool) :
    ℕ → List RouteState → Visited → ℚ → Option RouteResult
  | 0, _, _, _ => none
  | fuel + 1, pq, visited, best =>
    match pq with
    | [] => none
    | s :: rest =>
      if s.distance ≥ best then
        searchLoop env gps bounties roundTrip fuel rest visited best
      else if visitedSkip visited (s.currentNode, s.bountyStates)
          s.distance then
        searchLoop env gps bounties roundTrip fuel rest visited best
      else
        let visited1 := ((s.currentNode, s.bountyStates), s.distance) :: visited
        let p := processStop env gps bounties s
        if p.distance ≥ best then
          searchLoop env gps bounties roundTrip fuel rest visited1 best
        else if deliveriesCompleted (p.states.map Prod.snd) then
          if roundTrip ∧ s.currentNode ≠ env.board.node then
            let d3 := p.distance + (gps s.currentNode env.board.node).distance
            let a3 := addTravelSteps env gps p.actions (some s.currentNode)
                env.board.node ++
              [⟨ActionType.ret, none, env.board.name, d3⟩]
            if d3 < best then some ⟨a3, d3⟩
            else
              searchLoop env gps bounties roundTrip fuel
                (enqueueSuccessors env gps d3 a3 p.states
                  s.currentNode best rest) visited1 best
          else
            if p.distance < best then some ⟨p.actions, p.distance⟩
            else
              searchLoop env gps bounties roundTrip fuel
                (enqueueSuccessors env gps p.distance p.actions
                  p.states s.currentNode best rest) visited1 best
        else
          searchLoop env gps bounties roundTrip fuel
            (enqueueSuccessors env gps p.distance p.actions p.states
              s.currentNode best rest) visited1 best

/-- `findBestRoute(bounties, gps, threshold, roundTrip)`. -/
def findBestRoute (env : SearchEnv) (bounties : List BountyId)
    (gps : GPSFun) (threshold : ℚ) (roundTrip : Bool) (fuel : ℕ) :
    Option RouteResult :=
  searchLoop env gps bounties roundTrip fuel
    [⟨0, none, env.board.node,
      bounties.map (fun _ => BountyStatus.notStarted), []⟩]
    [] threshold

/-! ### Spec-side route semantics

Modelled from the spec (§4.3): a candidate route is a sequence of stops
starting at the depot; at each stop all eligible sells happen first (a
fixed per-item time each), then all eligible buys up to capacity (the
first buy at a stop costs a fixed time, later buys at the same stop are
free); travel between consecutive stops costs the oracle's travel time;
with `roundTrip`, the return leg to the depot is appended when the route
does not already end there.  This is the comparison definition used to
state optimality of `findBestRoute` over "all action sequences that
complete every task". -/

/-- Spec-side processing of one stop: sells, then capacity-bounded buys.
Returns the new status vector and the time spent at the stop. -/
def specStop (env : SearchEnv) (cur : Node)
    (pairs : List (BountyId × BountyStatus)) :
    List BountyStatus × ℚ :=
  let afterSell := pairs.map (fun p =>
    if (env.data p.1).buyer.node = cur ∧ p.2 = BountyStatus.inProgress then
      (p.1, BountyStatus.completed)
    else p)
  let nSold := (pairs.filter (fun p =>
    (env.data p.1).buyer.node = cur ∧
      p.2 = BountyStatus.inProgress)).length
  let held0 := countInProgress (afterSell.map Prod.snd)
  let step := fun (acc : List BountyStatus × ℕ × ℕ)
      (p : BountyId × BountyStatus) =>
    if (env.data p.1).seller.node = cur ∧ p.2 = BountyStatus.notStarted ∧
        inventorySpace - 6 * (acc.2.2 : ℚ) ≥ 6 then
      (acc.1 ++ [BountyStatus.inProgress], acc.2.1 + 1, acc.2.2 + 1)
    else (acc.1 ++ [p.2], acc.2.1, acc.2.2)
  let afterBuy := afterSell.foldl step ([], 0, held0)
  (afterBuy.1,
    nSold * timeToSell + (if afterBuy.2.1 > 0 then timeToBuy else 0))

/-- Spec-side execution of a whole stop sequence from the depot:
final status vector and total time (travel + per-stop time). -/
def specRun (env : SearchEnv) (gps : GPSFun) (bounties : List BountyId) :
    List Node → Node → List BountyStatus → ℚ → List BountyStatus × Node × ℚ
  | [], cur, sts, t => (sts, cur, t)
  | n :: rest, cur, sts, t =>
    let tTravel := (gps cur n).distance
    let r := specStop env n (bounties.zip sts)
    specRun env gps bounties rest n r.1 (t + tTravel + r.2)

/-- Spec-side total time of a stop sequence, with the round-trip leg. -/
def specPlanTime (env : SearchEnv) (gps : GPSFun) (bounties : List BountyId)
    (stops : List Node) (roundTrip : Bool) : ℚ :=
  let r := specRun env gps bounties stops env.board.node
    (bounties.map (fun _ => BountyStatus.notStarted)) 0
  if roundTrip ∧ r.2.1 ≠ env.board.node then
    r.2.2 + (gps r.2.1 env.board.node).distance
  else r.2.2

/-- Spec-side: the stop sequence completes every task of the subset. -/
def specPlanCompletes (env : SearchEnv) (gps : GPSFun)
    (bounties : List BountyId) (stops : List Node) : Bool :=
  deliveriesCompleted (specRun env gps bounties stops env.board.node
    (bounties.map (fun _ => BountyStatus.notStarted)) 0).1

/-! ### Concrete instance for the route planner (example 1)

Four locations: depot 0, seller 1 shared by both bounties, buyers 2 and 3.
The oracle is the shortest-path metric of a small static graph (all
pairwise distances satisfy the triangle inequality); paths are direct,
so no portal steps are injected. -/

def mref (n : Node) (s : String) : MarketRef := ⟨n, s⟩

def dummyBounty : BountyDef := ⟨"DUMMY", 0, mref 90 "X", mref 91 "Y"⟩

def ex1Data : BountyId → BountyDef := fun b =>
  if b = "A" then ⟨"A", 10, mref 1 "S", mref 2 "B0"⟩
  else if b = "B" then ⟨"B", 10, mref 1 "S", mref 3 "B1"⟩
  else dummyBounty

def ex1Gps : GPSFun := fun u v =>
  if u = v then ⟨0, [u]⟩
  else
    let d : ℚ :=
      match u, v with
      | 0, 1 => 10 | 1, 0 => 10
      | 1, 2 => 10 | 2, 1 => 10
      | 1, 3 => 11 | 3, 1 => 11
      | 2, 3 => 2 | 3, 2 => 2
      | 0, 2 => 5 | 2, 0 => 5
      | 0, 3 => 7 | 3, 0 => 7
      | _, _ => 1000
    ⟨d, [u, v]⟩

def ex1Env : SearchEnv :=
  ⟨ex1Data, mref 0 "Bounty Board", ⟨98, "Crenopolis Market", 1⟩,
    ⟨99, "Crenopolis Outskirts", 1⟩⟩

/-! ### C1: the first dequeued terminal state need not be optimal

The queue priority excludes the sell time spent at the final stop and the
round-trip return leg, both of which are added after dequeue.  On `ex1`
(round trip, two bounties sharing seller node 1, buyers at nodes 2 and 3)
the search dequeues the terminal state of the order buyer-2-then-buyer-3
first (priority 29 against 30) and returns total time 40, although the
order buyer-3-then-buyer-2 completes both bounties in 39 seconds. -/

/-- C1: on `ex1Env`, `findBestRoute` returns a 40-second round trip while
the stop sequence seller, buyer-B, buyer-A (nodes 1, 3, 2) completes both
bounties in 39 seconds under the same threshold — so the returned Solution
is not minimal-time, contradicting both the spec's optimality guarantee
and the function's own doc comment ("Determines the shortest route"). -/
theorem findBestRoute_first_terminal_not_minimal :
    (findBestRoute ex1Env ["A", "B"] ex1Gps maxSafeInteger true 100).map
      RouteResult.distance = some 40 ∧
    specPlanCompletes ex1Env ex1Gps ["A", "B"] [1, 3, 2] = true ∧
    specPlanTime ex1Env ex1Gps ["A", "B"] [1, 3, 2] true = 39 ∧
    ((39 : ℚ) < 40 ∧ (40 : ℚ) < maxSafeInteger) := by
  refine ⟨?_, ?_, ?_, ?_, ?_⟩ <;> with_unfolding_all decide

/-! ### C5: no returned Solution ever exceeds the threshold -/

/-- Every `some` returned by the search loop carries a distance strictly
below the current best-known bound: the two return sites are guarded by
`distance < bestDistance`, and `bestDistance` never grows. -/
theorem searchLoop_distance_lt_best (env : SearchEnv) (gps : GPSFun)
    (bounties : List BountyId) (roundTrip : Bool) :
    ∀ (fuel : ℕ) (pq : List RouteState) (visited : Visited) (best : ℚ)
      (r : RouteResult),
      searchLoop env gps bounties roundTrip fuel pq visited best = some r →
      r.distance < best := by
  intro fuel
  induction fuel with
  | zero =>
    intro pq visited best r h
    simp [searchLoop] at h
  | succ n ih =>
    intro pq visited best r h
    match pq with
    | [] => simp [searchLoop] at h
    | s :: rest =>
      simp only [searchLoop] at h
      repeat' split at h
      all_goals
        first
        | exact ih _ _ _ _ h
        | (injection h with h1; subst h1; assumption)

/-- C5: whenever `findBestRoute` returns a Solution, its total time does
not exceed the supplied threshold (the code in fact guarantees strictly
less); an empty queue yields `null` instead. -/
theorem findBestRoute_respects_threshold (env : SearchEnv)
    (bounties : List BountyId) (gps : GPSFun) (threshold : ℚ)
    (roundTrip : Bool) (fuel : ℕ) (r : RouteResult)
    (h : findBestRoute env bounties gps threshold roundTrip fuel = some r) :
    r.distance ≤ threshold :=
  le_of_lt (searchLoop_distance_lt_best env gps bounties roundTrip fuel _ _
    threshold r h)

/-- Witness for C5 at a concrete input: the single-bounty run on `ex1Env`
returns the 27-second route, and 27 ≤ MAX_SAFE_INTEGER. -/
theorem findBestRoute_respects_threshold_witness :
    (RouteResult.mk
      [⟨ActionType.buy, some "A", "S", 13⟩,
        ⟨ActionType.sell, some "A", "B0", 27⟩] 27).distance ≤
      maxSafeInteger :=
  findBestRoute_respects_threshold ex1Env ["A"] ex1Gps maxSafeInteger false
    100 _ (by with_unfolding_all decide)

/-! ### Counting machinery for the capacity (C6) and pairing (C10)
invariants -/

/-- Buy actions for bounty id `b`. -/
def buyCount (l : List Action) (b : BountyId) : ℕ :=
  (l.filter (fun a => a.type = ActionType.buy ∧ a.item = some b)).length

/-- Sell actions for bounty id `b`. -/
def sellCount (l : List Action) (b : BountyId) : ℕ :=
  (l.filter (fun a => a.type = ActionType.sell ∧ a.item = some b)).length

/-- All buy actions. -/
def buyTot (l : List Action) : ℕ :=
  (l.filter (fun a => a.type = ActionType.buy)).length

/-- All sell actions. -/
def sellTot (l : List Action) : ℕ :=
  (l.filter (fun a => a.type = ActionType.sell)).length

/-- Instances of bounty id `b` that have been bought (IN_PROGRESS or
COMPLETED). -/
def icCount (pairs : List (BountyId × BountyStatus)) (b : BountyId) : ℕ :=
  (pairs.filter (fun p => p.1 = b ∧ p.2 ≠ BountyStatus.notStarted)).length

/-- Instances of bounty id `b` that are COMPLETED. -/
def cCount (pairs : List (BountyId × BountyStatus)) (b : BountyId) : ℕ :=
  (pairs.filter (fun p => p.1 = b ∧ p.2 = BountyStatus.completed)).length

/-- Instances currently IN_PROGRESS. -/
def ipTot (pairs : List (BountyId × BountyStatus)) : ℕ :=
  (pairs.filter (fun p => p.2 = BountyStatus.inProgress)).length

theorem buyCount_append (l₁ l₂ : List Action) (b : BountyId) :
    buyCount (l₁ ++ l₂) b = buyCount l₁ b + buyCount l₂ b := by
  simp [buyCount, List.filter_append]

theorem sellCount_append (l₁ l₂ : List Action) (b : BountyId) :
    sellCount (l₁ ++ l₂) b = sellCount l₁ b + sellCount l₂ b := by
  simp [sellCount, List.filter_append]

theorem buyTot_append (l₁ l₂ : List Action) :
    buyTot (l₁ ++ l₂) = buyTot l₁ + buyTot l₂ := by
  simp [buyTot, List.filter_append]

theorem sellTot_append (l₁ l₂ : List Action) :
    sellTot (l₁ ++ l₂) = sellTot l₁ + sellTot l₂ := by
  simp [sellTot, List.filter_append]

theorem icCount_append (l₁ l₂ : List (BountyId × BountyStatus))
    (b : BountyId) :
    icCount (l₁ ++ l₂) b = icCount l₁ b + icCount l₂ b := by
  simp [icCount, List.filter_append]

theorem cCount_append (l₁ l₂ : List (BountyId × BountyStatus))
    (b : BountyId) :
    cCount (l₁ ++ l₂) b = cCount l₁ b + cCount l₂ b := by
  simp [cCount, List.filter_append]

theorem ipTot_append (l₁ l₂ : List (BountyId × BountyStatus)) :
    ipTot (l₁ ++ l₂) = ipTot l₁ + ipTot l₂ := by
  simp [ipTot, List.filter_append]

/-- An action that is neither a buy nor a sell. -/
def NonTrade (a : Action) : Prop :=
  a.type ≠ ActionType.buy ∧ a.type ≠ ActionType.sell

theorem buyCount_eq_zero {t : List Action} (h : ∀ a ∈ t, NonTrade a)
    (b : BountyId) : buyCount t b = 0 := by
  simp only [buyCount, List.length_eq_zero, List.filter_eq_nil_iff]
  intro a ha
  simp only [decide_eq_true_eq, not_and]
  intro hb
  exact absurd hb (h a ha).1

theorem sellCount_eq_zero {t : List Action} (h : ∀ a ∈ t, NonTrade a)
    (b : BountyId) : sellCount t b = 0 := by
  simp only [sellCount, List.length_eq_zero, List.filter_eq_nil_iff]
  intro a ha
  simp only [decide_eq_true_eq, not_and]
  intro hb
  exact absurd hb (h a ha).2

theorem buyTot_eq_zero {t : List Action} (h : ∀ a ∈ t, NonTrade a) :
    buyTot t = 0 := by
  simp only [buyTot, List.length_eq_zero, List.filter_eq_nil_iff]
  intro a ha
  simpa using (h a ha).1

theorem sellTot_eq_zero {t : List Action} (h : ∀ a ∈ t, NonTrade a) :
    sellTot t = 0 := by
  simp only [sellTot, List.length_eq_zero, List.filter_eq_nil_iff]
  intro a ha
  simpa using (h a ha).2

theorem travelInjection_nonTrade (env : SearchEnv) (gps : GPSFun)
    (p : Option Node) (c : Node) (base : ℚ) :
    ∀ a ∈ travelInjection env gps p c base, NonTrade a := by
  intro a ha
  match p with
  | none => simp [travelInjection] at ha
  | some s =>
    simp only [travelInjection] at ha
    split at ha
    · simp at ha
    · obtain ⟨n, _, hn⟩ := List.mem_filterMap.mp ha
      split at hn
      · cases hn; exact ⟨by simp, by simp⟩
      · split at hn
        · cases hn; exact ⟨by simp, by simp⟩
        · cases hn

/-- The count invariant tying an action list to a status-pair vector:
per-id buys match bought instances, per-id sells match completed
instances, every prefix has sells ≤ buys per id, every prefix holds at
most 4 items net, and the net of the whole list is the IN_PROGRESS
count. -/
structure CountOK (pairs : List (BountyId × BountyStatus))
    (acts : List Action) : Prop where
  hbuy : ∀ b, buyCount acts b = icCount pairs b
  hsell : ∀ b, sellCount acts b = cCount pairs b
  hpre : ∀ n b, sellCount (acts.take n) b ≤ buyCount (acts.take n) b
  hcap : ∀ n, buyTot (acts.take n) ≤ sellTot (acts.take n) + 4
  hnet : buyTot acts = sellTot acts + ipTot pairs

/-- Appending non-trade actions (travel steps, the return action)
preserves the count invariant. -/
theorem CountOK.append_nonTrade {pairs acts} (h : CountOK pairs acts)
    {t : List Action} (ht : ∀ a ∈ t, NonTrade a) :
    CountOK pairs (acts ++ t) := by
  refine ⟨?_, ?_, ?_, ?_, ?_⟩
  · intro b
    rw [buyCount_append, buyCount_eq_zero ht, Nat.add_zero, h.hbuy]
  · intro b
    rw [sellCount_append, sellCount_eq_zero ht, Nat.add_zero, h.hsell]
  · intro n b
    rw [List.take_append_eq_append_take, sellCount_append, buyCount_append,
      sellCount_eq_zero (fun a ha => ht a (List.take_subset _ _ ha)),
      buyCount_eq_zero (fun a ha => ht a (List.take_subset _ _ ha))]
    simpa using h.hpre n b
  · intro n
    rw [List.take_append_eq_append_take, buyTot_append, sellTot_append,
      buyTot_eq_zero (fun a ha => ht a (List.take_subset _ _ ha)),
      sellTot_eq_zero (fun a ha => ht a (List.take_subset _ _ ha))]
    simpa using h.hcap n
  · rw [buyTot_append, sellTot_append, buyTot_eq_zero ht,
      sellTot_eq_zero ht, Nat.add_zero, Nat.add_zero, h.hnet]


/-- Counts over a singleton pair. -/
theorem icCount_single (b : BountyId) (st : BountyStatus) (b' : BountyId) :
    icCount [(b, st)] b' =
      if b = b' ∧ st ≠ BountyStatus.notStarted then 1 else 0 := by
  simp only [icCount, List.filter, List.length]
  split <;> split <;> simp_all

theorem cCount_single (b : BountyId) (st : BountyStatus) (b' : BountyId) :
    cCount [(b, st)] b' =
      if b = b' ∧ st = BountyStatus.completed then 1 else 0 := by
  simp only [cCount, List.filter, List.length]
  split <;> split <;> simp_all

theorem ipTot_single (b : BountyId) (st : BountyStatus) :
    ipTot [(b, st)] = if st = BountyStatus.inProgress then 1 else 0 := by
  simp only [ipTot, List.filter, List.length]
  split <;> split <;> simp_all

/-- Counts over a singleton action. -/
theorem buyCount_single (a : Action) (b : BountyId) :
    buyCount [a] b =
      if a.type = ActionType.buy ∧ a.item = some b then 1 else 0 := by
  simp only [buyCount, List.filter, List.length]
  split <;> split <;> simp_all

theorem sellCount_single (a : Action) (b : BountyId) :
    sellCount [a] b =
      if a.type = ActionType.sell ∧ a.item = some b then 1 else 0 := by
  simp only [sellCount, List.filter, List.length]
  split <;> split <;> simp_all

theorem buyTot_single (a : Action) :
    buyTot [a] = if a.type = ActionType.buy then 1 else 0 := by
  simp only [buyTot, List.filter, List.length]
  split <;> split <;> simp_all

theorem sellTot_single (a : Action) :
    sellTot [a] = if a.type = ActionType.sell then 1 else 0 := by
  simp only [sellTot, List.filter, List.length]
  split <;> split <;> simp_all

theorem cCount_le_icCount (pairs : List (BountyId × BountyStatus))
    (b : BountyId) : cCount pairs b ≤ icCount pairs b := by
  induction pairs with
  | nil => simp [cCount, icCount]
  | cons p l ih =>
    obtain ⟨pb, pst⟩ := p
    rw [show (pb, pst) :: l = [(pb, pst)] ++ l from rfl, cCount_append,
      icCount_append, cCount_single, icCount_single]
    have h1 : (if pb = b ∧ pst = BountyStatus.completed then 1 else 0) ≤
        (if pb = b ∧ pst ≠ BountyStatus.notStarted then 1 else 0) := by
      split <;> split <;> simp_all
    omega

theorem buyCount_nil (b : BountyId) : buyCount [] b = 0 := rfl
theorem sellCount_nil (b : BountyId) : sellCount [] b = 0 := rfl
theorem buyTot_nil : buyTot [] = 0 := rfl
theorem sellTot_nil : sellTot [] = 0 := rfl

/-- Counts of a singleton sell action. -/
theorem buyCount_sellAct (b : BountyId) (loc : String) (d : ℚ)
    (b' : BountyId) :
    buyCount [⟨ActionType.sell, some b, loc, d⟩] b' = 0 := by
  rw [buyCount_single]; simp

theorem sellCount_sellAct (b : BountyId) (loc : String) (d : ℚ)
    (b' : BountyId) :
    sellCount [⟨ActionType.sell, some b, loc, d⟩] b' =
      if b = b' then 1 else 0 := by
  rw [sellCount_single]; simp

theorem buyTot_sellAct (b : BountyId) (loc : String) (d : ℚ) :
    buyTot [⟨ActionType.sell, some b, loc, d⟩] = 0 := by
  rw [buyTot_single]; simp

theorem sellTot_sellAct (b : BountyId) (loc : String) (d : ℚ) :
    sellTot [⟨ActionType.sell, some b, loc, d⟩] = 1 := by
  rw [sellTot_single]; simp

/-- Counts of a singleton buy action. -/
theorem buyCount_buyAct (b : BountyId) (loc : String) (d : ℚ)
    (b' : BountyId) :
    buyCount [⟨ActionType.buy, some b, loc, d⟩] b' =
      if b = b' then 1 else 0 := by
  rw [buyCount_single]; simp

theorem sellCount_buyAct (b : BountyId) (loc : String) (d : ℚ)
    (b' : BountyId) :
    sellCount [⟨ActionType.buy, some b, loc, d⟩] b' = 0 := by
  rw [sellCount_single]; simp

theorem buyTot_buyAct (b : BountyId) (loc : String) (d : ℚ) :
    buyTot [⟨ActionType.buy, some b, loc, d⟩] = 1 := by
  rw [buyTot_single]; simp

theorem sellTot_buyAct (b : BountyId) (loc : String) (d : ℚ) :
    sellTot [⟨ActionType.buy, some b, loc, d⟩] = 0 := by
  rw [sellTot_single]; simp

/-- Selling one IN_PROGRESS instance of `b` preserves the count
invariant. -/
theorem CountOK.append_sell {S R : List (BountyId × BountyStatus)}
    {A : List Action} {b : BountyId} (loc : String) (d : ℚ)
    (h : CountOK (S ++ (b, BountyStatus.inProgress) :: R) A) :
    CountOK (S ++ (b, BountyStatus.completed) :: R)
      (A ++ [⟨ActionType.sell, some b, loc, d⟩]) := by
  have e1 : ∀ st : BountyStatus, (b, st) :: R = [(b, st)] ++ R :=
    fun _ => rfl
  have hic : ∀ b', icCount (S ++ (b, BountyStatus.completed) :: R) b' =
      icCount (S ++ (b, BountyStatus.inProgress) :: R) b' := by
    intro b'
    rw [e1, e1, icCount_append, icCount_append, icCount_append,
      icCount_append, icCount_single, icCount_single]
    simp
  have hcc : ∀ b', cCount (S ++ (b, BountyStatus.completed) :: R) b' =
      cCount (S ++ (b, BountyStatus.inProgress) :: R) b' +
        (if b = b' then 1 else 0) := by
    intro b'
    rw [e1, e1, cCount_append, cCount_append, cCount_append, cCount_append,
      cCount_single, cCount_single]
    by_cases hb : b = b' <;> simp [hb] <;> omega
  have hip : ipTot (S ++ (b, BountyStatus.inProgress) :: R) =
      ipTot (S ++ (b, BountyStatus.completed) :: R) + 1 := by
    rw [e1, e1, ipTot_append, ipTot_append, ipTot_append, ipTot_append,
      ipTot_single, ipTot_single]
    simp
    omega
  have hgap : ∀ b', cCount (S ++ (b, BountyStatus.inProgress) :: R) b' +
      (if b = b' then 1 else 0) ≤
      icCount (S ++ (b, BountyStatus.inProgress) :: R) b' := by
    intro b'
    rw [e1, cCount_append, cCount_append, icCount_append, icCount_append,
      cCount_single, icCount_single]
    have hs := cCount_le_icCount S b'
    have hr := cCount_le_icCount R b'
    by_cases hb : b = b' <;> simp [hb] <;> omega
  refine ⟨?_, ?_, ?_, ?_, ?_⟩
  · intro b'
    rw [buyCount_append, buyCount_sellAct, hic b', h.hbuy b']
    omega
  · intro b'
    rw [sellCount_append, sellCount_sellAct, hcc b', h.hsell b']
  · intro n b'
    rw [List.take_append_eq_append_take, sellCount_append, buyCount_append]
    rcases le_or_lt n A.length with hn | hn
    · rw [Nat.sub_eq_zero_of_le hn, List.take_zero, buyCount_nil,
        sellCount_nil]
      simpa using h.hpre n b'
    · rw [List.take_of_length_le (l := A) (le_of_lt hn),
        List.take_of_length_le (l := [_]) (by simp; omega),
        sellCount_sellAct, buyCount_sellAct]
      have hb' := h.hbuy b'
      have hs' := h.hsell b'
      have hg := hgap b'
      omega
  · intro n
    rw [List.take_append_eq_append_take, buyTot_append, sellTot_append]
    rcases le_or_lt n A.length with hn | hn
    · rw [Nat.sub_eq_zero_of_le hn, List.take_zero, buyTot_nil,
        sellTot_nil]
      simpa using h.hcap n
    · rw [List.take_of_length_le (l := A) (le_of_lt hn),
        List.take_of_length_le (l := [_]) (by simp; omega),
        buyTot_sellAct, sellTot_sellAct]
      have hful := h.hcap A.length
      rw [List.take_length] at hful
      omega
  · rw [buyTot_append, sellTot_append, buyTot_sellAct, sellTot_sellAct,
      h.hnet, hip]
    omega

/-- Buying one NOT_STARTED instance of `b` preserves the count invariant,
provided fewer than four items are currently held. -/
theorem CountOK.append_buy {S R : List (BountyId × BountyStatus)}
    {A : List Action} {b : BountyId} (loc : String) (d : ℚ)
    (h : CountOK (S ++ (b, BountyStatus.notStarted) :: R) A)
    (hheld : ipTot (S ++ (b, BountyStatus.notStarted) :: R) ≤ 3) :
    CountOK (S ++ (b, BountyStatus.inProgress) :: R)
      (A ++ [⟨ActionType.buy, some b, loc, d⟩]) := by
  have e1 : ∀ st : BountyStatus, (b, st) :: R = [(b, st)] ++ R :=
    fun _ => rfl
  have hic : ∀ b', icCount (S ++ (b, BountyStatus.inProgress) :: R) b' =
      icCount (S ++ (b, BountyStatus.notStarted) :: R) b' +
        (if b = b' then 1 else 0) := by
    intro b'
    rw [e1, e1, icCount_append, icCount_append, icCount_append,
      icCount_append, icCount_single, icCount_single]
    by_cases hb : b = b' <;> simp [hb] <;> omega
  have hcc : ∀ b', cCount (S ++ (b, BountyStatus.inProgress) :: R) b' =
      cCount (S ++ (b, BountyStatus.notStarted) :: R) b' := by
    intro b'
    rw [e1, e1, cCount_append, cCount_append, cCount_append, cCount_append,
      cCount_single, cCount_single]
    simp
  have hip : ipTot (S ++ (b, BountyStatus.inProgress) :: R) =
      ipTot (S ++ (b, BountyStatus.notStarted) :: R) + 1 := by
    rw [e1, e1, ipTot_append, ipTot_append, ipTot_append, ipTot_append,
      ipTot_single, ipTot_single]
    simp
    omega
  refine ⟨?_, ?_, ?_, ?_, ?_⟩
  · intro b'
    rw [buyCount_append, buyCount_buyAct, hic b', h.hbuy b']
  · intro b'
    rw [sellCount_append, sellCount_buyAct, hcc b', h.hsell b']
    omega
  · intro n b'
    rw [List.take_append_eq_append_take, sellCount_append, buyCount_append]
    rcases le_or_lt n A.length with hn | hn
    · rw [Nat.sub_eq_zero_of_le hn, List.take_zero, buyCount_nil,
        sellCount_nil]
      simpa using h.hpre n b'
    · rw [List.take_of_length_le (l := A) (le_of_lt hn),
        List.take_of_length_le (l := [_]) (by simp; omega),
        sellCount_buyAct, buyCount_buyAct]
      have hful := h.hpre A.length b'
      rw [List.take_length] at hful
      split <;> omega
  · intro n
    rw [List.take_append_eq_append_take, buyTot_append, sellTot_append]
    rcases le_or_lt n A.length with hn | hn
    · rw [Nat.sub_eq_zero_of_le hn, List.take_zero, buyTot_nil,
        sellTot_nil]
      simpa using h.hcap n
    · rw [List.take_of_length_le (l := A) (le_of_lt hn),
        List.take_of_length_le (l := [_]) (by simp; omega),
        buyTot_buyAct, sellTot_buyAct]
      have hnet := h.hnet
      omega
  · rw [buyTot_append, sellTot_append, buyTot_buyAct, sellTot_buyAct,
      h.hnet, hip]
    omega

theorem countInProgress_map_snd (pairs : List (BountyId × BountyStatus)) :
    countInProgress (pairs.map Prod.snd) = ipTot pairs := by
  induction pairs with
  | nil => rfl
  | cons p l ih =>
    simp only [countInProgress, ipTot, List.map_cons,
      List.filter_cons] at ih ⊢
    split <;> simp_all

theorem canPurchaseMoreItems_eq_true_iff (sts : List BountyStatus) :
    canPurchaseMoreItems sts = true ↔ countInProgress sts ≤ 3 := by
  unfold canPurchaseMoreItems inventorySpace
  rw [decide_eq_true_iff]
  constructor
  · intro h
    by_contra hc
    push_neg at hc
    have h4 : (4 : ℚ) ≤ (countInProgress sts : ℚ) := by exact_mod_cast hc
    linarith
  · intro h
    have h3 : (countInProgress sts : ℚ) ≤ 3 := by exact_mod_cast h
    linarith

theorem sellPhase_countOK (env : SearchEnv) (gps : GPSFun)
    (prev : Option Node) (cur : Node) :
    ∀ (rem : List (BountyId × BountyStatus)) (acc : Proc),
      CountOK (acc.states ++ rem) acc.actions →
      CountOK (sellPhase env gps prev cur rem acc).states
        (sellPhase env gps prev cur rem acc).actions := by
  intro rem
  induction rem with
  | nil =>
    intro acc h
    simpa [sellPhase] using h
  | cons hd tl ih =>
    intro acc h
    obtain ⟨b, st⟩ := hd
    by_cases hcur : cur ≠ ((env.data b).buyer.node)
    · rw [show sellPhase env gps prev cur ((b, st) :: tl) acc =
        sellPhase env gps prev cur tl
          { acc with states := acc.states ++ [(b, st)] } by
          simp [sellPhase, hcur]]
      exact ih _ (by simpa [List.append_assoc] using h)
    · by_cases hst : st ≠ BountyStatus.inProgress
      · rw [show sellPhase env gps prev cur ((b, st) :: tl) acc =
          sellPhase env gps prev cur tl
            { acc with states := acc.states ++ [(b, st)] } by
            simp [sellPhase, hcur, hst]]
        exact ih _ (by simpa [List.append_assoc] using h)
      · push_neg at hst
        subst hst
        rw [show sellPhase env gps prev cur
            ((b, BountyStatus.inProgress) :: tl) acc =
          sellPhase env gps prev cur tl
            { states := acc.states ++ [(b, BountyStatus.completed)]
              actions := (if acc.nBought + acc.nSold = 0 then
                  addTravelSteps env gps acc.actions prev cur
                else acc.actions) ++
                [⟨ActionType.sell, some b, (env.data b).buyer.name,
                  acc.distance + timeToSell⟩]
              distance := acc.distance + timeToSell
              nBought := acc.nBought
              nSold := acc.nSold + 1 } by
          simp [sellPhase, hcur]]
        apply ih
        have hacts : ∃ T, (if acc.nBought + acc.nSold = 0 then
            addTravelSteps env gps acc.actions prev cur
          else acc.actions) = acc.actions ++ T ∧ ∀ a ∈ T, NonTrade a := by
          split
          · exact ⟨_, rfl, travelInjection_nonTrade env gps prev cur _⟩
          · exact ⟨[], by simp, by simp⟩
        obtain ⟨T, hT, hTnt⟩ := hacts
        rw [hT]
        have h1 : CountOK (acc.states ++ (b, BountyStatus.inProgress) :: tl)
            (acc.actions ++ T) := h.append_nonTrade hTnt
        have h2 := h1.append_sell (env.data b).buyer.name
          (acc.distance + timeToSell)
        simpa [List.append_assoc] using h2

theorem buyPhase_countOK (env : SearchEnv) (gps : GPSFun)
    (prev : Option Node) (cur : Node) :
    ∀ (rem : List (BountyId × BountyStatus)) (acc : Proc),
      CountOK (acc.states ++ rem) acc.actions →
      CountOK (buyPhase env gps prev cur rem acc).states
        (buyPhase env gps prev cur rem acc).actions := by
  intro rem
  induction rem with
  | nil =>
    intro acc h
    simpa [buyPhase] using h
  | cons hd tl ih =>
    intro acc h
    obtain ⟨b, st⟩ := hd
    by_cases hcap : ¬ canPurchaseMoreItems
        ((acc.states ++ (b, st) :: tl).map Prod.snd)
    · rw [show buyPhase env gps prev cur ((b, st) :: tl) acc =
        { acc with states := acc.states ++ (b, st) :: tl } from by
          simp only [buyPhase]; rw [if_pos hcap]]
      exact h
    · by_cases hcur : cur ≠ ((env.data b).seller.node)
      · rw [show buyPhase env gps prev cur ((b, st) :: tl) acc =
          buyPhase env gps prev cur tl
            { acc with states := acc.states ++ [(b, st)] } from by
            simp only [buyPhase]; rw [if_neg hcap, if_pos hcur]]
        exact ih _ (by simpa [List.append_assoc] using h)
      · by_cases hst : st ≠ BountyStatus.notStarted
        · rw [show buyPhase env gps prev cur ((b, st) :: tl) acc =
            buyPhase env gps prev cur tl
              { acc with states := acc.states ++ [(b, st)] } from by
              simp only [buyPhase]
              rw [if_neg hcap, if_neg hcur, if_pos hst]]
          exact ih _ (by simpa [List.append_assoc] using h)
        · push_neg at hst
          subst hst
          rw [show buyPhase env gps prev cur
              ((b, BountyStatus.notStarted) :: tl) acc =
            buyPhase env gps prev cur tl
              { states := acc.states ++ [(b, BountyStatus.inProgress)]
                actions := (if acc.nBought + acc.nSold = 0 then
                    addTravelSteps env gps acc.actions prev cur
                  else acc.actions) ++
                  [⟨ActionType.buy, some b, (env.data b).seller.name,
                    if acc.nBought = 0 then acc.distance + timeToBuy
                    else acc.distance⟩]
                distance := if acc.nBought = 0 then
                    acc.distance + timeToBuy
                  else acc.distance
                nBought := acc.nBought + 1
                nSold := acc.nSold } from by
            simp only [buyPhase]
            rw [if_neg hcap, if_neg hcur, if_neg (by simp)]]
          apply ih
          push_neg at hcap
          rw [canPurchaseMoreItems_eq_true_iff, countInProgress_map_snd]
            at hcap
          have hacts : ∃ T, (if acc.nBought + acc.nSold = 0 then
              addTravelSteps env gps acc.actions prev cur
            else acc.actions) = acc.actions ++ T ∧ ∀ a ∈ T, NonTrade a := by
            split
            · exact ⟨_, rfl, travelInjection_nonTrade env gps prev cur _⟩
            · exact ⟨[], by simp, by simp⟩
          obtain ⟨T, hT, hTnt⟩ := hacts
          rw [hT]
          have h1 : CountOK
              (acc.states ++ (b, BountyStatus.notStarted) :: tl)
              (acc.actions ++ T) := h.append_nonTrade hTnt
          have h2 := h1.append_buy (env.data b).seller.name
            (if acc.nBought = 0 then acc.distance + timeToBuy
              else acc.distance) hcap
          simpa [List.append_assoc] using h2

/-- The sell loop rewrites statuses but keeps the ids in order. -/
theorem sellPhase_states_fst (env : SearchEnv) (gps : GPSFun)
    (prev : Option Node) (cur : Node) :
    ∀ (rem : List (BountyId × BountyStatus)) (acc : Proc),
      (sellPhase env gps prev cur rem acc).states.map Prod.fst =
        acc.states.map Prod.fst ++ rem.map Prod.fst := by
  intro rem
  induction rem with
  | nil => intro acc; simp [sellPhase]
  | cons hd tl ih =>
    intro acc
    obtain ⟨b, st⟩ := hd
    by_cases hcur : cur ≠ ((env.data b).buyer.node)
    · rw [show sellPhase env gps prev cur ((b, st) :: tl) acc =
        sellPhase env gps prev cur tl
          { acc with states := acc.states ++ [(b, st)] } from by
          simp only [sellPhase]; rw [if_pos hcur]]
      rw [ih]
      simp
    · by_cases hst : st ≠ BountyStatus.inProgress
      · rw [show sellPhase env gps prev cur ((b, st) :: tl) acc =
          sellPhase env gps prev cur tl
            { acc with states := acc.states ++ [(b, st)] } from by
            simp only [sellPhase]; rw [if_neg hcur, if_pos hst]]
        rw [ih]
        simp
      · rw [show sellPhase env gps prev cur ((b, st) :: tl) acc =
          sellPhase env gps prev cur tl
            { states := acc.states ++ [(b, BountyStatus.completed)]
              actions := (if acc.nBought + acc.nSold = 0 then
                  addTravelSteps env gps acc.actions prev cur
                else acc.actions) ++
                [⟨ActionType.sell, some b, (env.data b).buyer.name,
                  acc.distance + timeToSell⟩]
              distance := acc.distance + timeToSell
              nBought := acc.nBought
              nSold := acc.nSold + 1 } from by
            simp only [sellPhase]; rw [if_neg hcur, if_neg hst]]
        rw [ih]
        simp

/-- The buy loop rewrites statuses but keeps the ids in order. -/
theorem buyPhase_states_fst (env : SearchEnv) (gps : GPSFun)
    (prev : Option Node) (cur : Node) :
    ∀ (rem : List (BountyId × BountyStatus)) (acc : Proc),
      (buyPhase env gps prev cur rem acc).states.map Prod.fst =
        acc.states.map Prod.fst ++ rem.map Prod.fst := by
  intro rem
  induction rem with
  | nil => intro acc; simp [buyPhase]
  | cons hd tl ih =>
    intro acc
    obtain ⟨b, st⟩ := hd
    by_cases hcap : ¬ canPurchaseMoreItems
        ((acc.states ++ (b, st) :: tl).map Prod.snd)
    · rw [show buyPhase env gps prev cur ((b, st) :: tl) acc =
        { acc with states := acc.states ++ (b, st) :: tl } from by
          simp only [buyPhase]; rw [if_pos hcap]]
      simp
    · by_cases hcur : cur ≠ ((env.data b).seller.node)
      · rw [show buyPhase env gps prev cur ((b, st) :: tl) acc =
          buyPhase env gps prev cur tl
            { acc with states := acc.states ++ [(b, st)] } from by
            simp only [buyPhase]; rw [if_neg hcap, if_pos hcur]]
        rw [ih]
        simp
      · by_cases hst : st ≠ BountyStatus.notStarted
        · rw [show buyPhase env gps prev cur ((b, st) :: tl) acc =
            buyPhase env gps prev cur tl
              { acc with states := acc.states ++ [(b, st)] } from by
              simp only [buyPhase]
              rw [if_neg hcap, if_neg hcur, if_pos hst]]
          rw [ih]
          simp
        · push_neg at hst
          subst hst
          rw [show buyPhase env gps prev cur
              ((b, BountyStatus.notStarted) :: tl) acc =
            buyPhase env gps prev cur tl
              { states := acc.states ++ [(b, BountyStatus.inProgress)]
                actions := (if acc.nBought + acc.nSold = 0 then
                    addTravelSteps env gps acc.actions prev cur
                  else acc.actions) ++
                  [⟨ActionType.buy, some b, (env.data b).seller.name,
                    if acc.nBought = 0 then acc.distance + timeToBuy
                    else acc.distance⟩]
                distance := if acc.nBought = 0 then
                    acc.distance + timeToBuy
                  else acc.distance
                nBought := acc.nBought + 1
                nSold := acc.nSold } from by
            simp only [buyPhase]
            rw [if_neg hcap, if_neg hcur, if_neg (by simp)]]
          rw [ih]
          simp

/-- Processing a stop keeps the ids of the status vector in order. -/
theorem processStop_states_fst (env : SearchEnv) (gps : GPSFun)
    (bounties : List BountyId) (s : RouteState)
    (hlen : s.bountyStates.length = bounties.length) :
    (processStop env gps bounties s).states.map Prod.fst = bounties := by
  unfold processStop
  rw [buyPhase_states_fst, sellPhase_states_fst]
  simp [List.map_fst_zip _ _ (le_of_eq hlen.symm)]

/-- Processing a stop preserves the count invariant. -/
theorem processStop_countOK (env : SearchEnv) (gps : GPSFun)
    (bounties : List BountyId) (s : RouteState)
    (h : CountOK (bounties.zip s.bountyStates) s.actions) :
    CountOK (processStop env gps bounties s).states
      (processStop env gps bounties s).actions := by
  unfold processStop
  apply buyPhase_countOK
  have h1 := sellPhase_countOK env gps s.previousNode s.currentNode
    (bounties.zip s.bountyStates) ⟨[], s.actions, s.distance, 0, 0⟩
    (by simpa using h)
  simpa using h1

theorem mem_pqInsert {x s : RouteState} :
    ∀ {q : List RouteState}, x ∈ pqInsert s q → x = s ∨ x ∈ q := by
  intro q
  induction q with
  | nil => intro h; simpa [pqInsert] using h
  | cons y ys ih =>
    intro h
    simp only [pqInsert] at h
    split at h
    · rcases List.mem_cons.mp h with h1 | h1
      · exact Or.inl h1
      · exact Or.inr h1
    · rcases List.mem_cons.mp h with h1 | h1
      · exact Or.inr (by simp [h1])
      · rcases ih h1 with h2 | h2
        · exact Or.inl h2
        · exact Or.inr (by simp [h2])

theorem mem_enqueueTargets {gps : GPSFun} {dist : ℚ} {acts : List Action}
    {sts : List BountyStatus} {cur : Node} {best : ℚ} :
    ∀ (targets : List Node) (pq : List RouteState) (x : RouteState),
      x ∈ enqueueTargets gps dist acts sts cur best targets pq →
      x ∈ pq ∨ (x.bountyStates = sts ∧ x.actions = acts) := by
  intro targets
  induction targets with
  | nil =>
    intro pq x h
    exact Or.inl (by simpa [enqueueTargets] using h)
  | cons t ts ih =>
    intro pq x h
    rw [show enqueueTargets gps dist acts sts cur best (t :: ts) pq =
      enqueueTargets gps dist acts sts cur best ts
        (if dist + (gps cur t).distance < best then
          pqInsert ⟨dist + (gps cur t).distance, some cur, t, sts, acts⟩ pq
        else pq) from rfl] at h
    rcases ih _ x h with h1 | h1
    · split at h1
      · rcases mem_pqInsert h1 with h2 | h2
        · subst h2
          exact Or.inr ⟨rfl, rfl⟩
        · exact Or.inl h2
      · exact Or.inl h1
    · exact Or.inr h1

theorem mem_enqueueSuccessors {env : SearchEnv} {gps : GPSFun} {dist : ℚ}
    {acts : List Action} {pairs : List (BountyId × BountyStatus)}
    {cur : Node} {best : ℚ} {pq : List RouteState} {x : RouteState}
    (h : x ∈ enqueueSuccessors env gps dist acts pairs cur best pq) :
    x ∈ pq ∨ (x.bountyStates = pairs.map Prod.snd ∧ x.actions = acts) := by
  simp only [enqueueSuccessors] at h
  rcases mem_enqueueTargets _ _ _ h with h1 | h1
  · split at h1
    · rcases mem_enqueueTargets _ _ _ h1 with h2 | h2
      · exact Or.inl h2
      · exact Or.inr h2
    · exact Or.inl h1
  · exact Or.inr h1

theorem completed_counts {pairs : List (BountyId × BountyStatus)}
    (h : ∀ p ∈ pairs, p.2 = BountyStatus.completed) (b : BountyId) :
    icCount pairs b = (pairs.map Prod.fst).count b ∧
      cCount pairs b = (pairs.map Prod.fst).count b := by
  induction pairs with
  | nil => simp [icCount, cCount]
  | cons p l ih =>
    obtain ⟨pb, pst⟩ := p
    have hp : pst = BountyStatus.completed := h (pb, pst) (by simp)
    subst hp
    obtain ⟨ih1, ih2⟩ := ih (fun q hq => h q (List.mem_cons_of_mem _ hq))
    rw [show ((pb, BountyStatus.completed) :: l) =
      [(pb, BountyStatus.completed)] ++ l from rfl, icCount_append,
      cCount_append, icCount_single, cCount_single]
    constructor
    · rw [ih1]
      by_cases hb : pb = b <;> simp [hb, List.count_cons] <;> omega
    · rw [ih2]
      by_cases hb : pb = b <;> simp [hb, List.count_cons] <;> omega

theorem deliveriesCompleted_pairs
    {pairs : List (BountyId × BountyStatus)}
    (h : deliveriesCompleted (pairs.map Prod.snd) = true) :
    ∀ p ∈ pairs, p.2 = BountyStatus.completed := by
  intro p hp
  have := List.all_eq_true.mp h p.2 (List.mem_map_of_mem Prod.snd hp)
  simpa using this

/-- The per-route count facts delivered to the two claims: buys and sells
match the subset's multiplicities, every prefix has sells ≤ buys per id,
and every prefix holds at most 4 items net. -/
def RouteCountOK (bounties : List BountyId) (acts : List Action) : Prop :=
  (∀ b, buyCount acts b = bounties.count b) ∧
  (∀ b, sellCount acts b = bounties.count b) ∧
  (∀ n b, sellCount (acts.take n) b ≤ buyCount (acts.take n) b) ∧
  (∀ n, buyTot (acts.take n) ≤ sellTot (acts.take n) + 4)

theorem countOK_completed_routeCountOK {pairs : List (BountyId × BountyStatus)}
    {acts : List Action} {bounties : List BountyId}
    (hok : CountOK pairs acts) (hfst : pairs.map Prod.fst = bounties)
    (hcomp : ∀ p ∈ pairs, p.2 = BountyStatus.completed) :
    RouteCountOK bounties acts := by
  refine ⟨?_, ?_, hok.hpre, hok.hcap⟩
  · intro b
    rw [hok.hbuy, (completed_counts hcomp b).1, hfst]
  · intro b
    rw [hok.hsell, (completed_counts hcomp b).2, hfst]

/-- Queue invariant for the count facts: every queued state's actions and
status vector satisfy `CountOK`. -/
def QueueCountOK (bounties : List BountyId) (pq : List RouteState) : Prop :=
  ∀ s ∈ pq, s.bountyStates.length = bounties.length ∧
    CountOK (bounties.zip s.bountyStates) s.actions

theorem searchLoop_routeCountOK (env : SearchEnv) (gps : GPSFun)
    (bounties : List BountyId) (roundTrip : Bool) :
    ∀ (fuel : ℕ) (pq : List RouteState) (visited : Visited) (best : ℚ)
      (r : RouteResult),
      QueueCountOK bounties pq →
      searchLoop env gps bounties roundTrip fuel pq visited best = some r →
      RouteCountOK bounties r.actions := by
  intro fuel
  induction fuel with
  | zero =>
    intro pq visited best r _ h
    simp [searchLoop] at h
  | succ n ih =>
    intro pq visited best r hpq h
    match pq with
    | [] => simp [searchLoop] at h
    | s :: rest =>
      have hs := hpq s (by simp)
      have hrest : QueueCountOK bounties rest := fun t ht =>
        hpq t (by simp [ht])
      have hpOK : CountOK (processStop env gps bounties s).states
          (processStop env gps bounties s).actions :=
        processStop_countOK env gps bounties s hs.2
      have hfst : (processStop env gps bounties s).states.map Prod.fst =
          bounties := processStop_states_fst env gps bounties s hs.1
      have hzip : bounties.zip
          ((processStop env gps bounties s).states.map Prod.snd) =
          (processStop env gps bounties s).states :=
        (List.zip_of_prod hfst rfl).symm
      have hlenp :
          ((processStop env gps bounties s).states.map Prod.snd).length =
          bounties.length := by
        rw [List.length_map]
        have hl := congrArg List.length hfst
        simpa using hl
      have hsucc : ∀ (d : ℚ) (a : List Action),
          CountOK (processStop env gps bounties s).states a →
          QueueCountOK bounties
            (enqueueSuccessors env gps d a
              (processStop env gps bounties s).states s.currentNode best
              rest) := by
        intro d a ha t ht
        rcases mem_enqueueSuccessors ht with h1 | h1
        · exact hrest t h1
        · refine ⟨by rw [h1.1]; exact hlenp, ?_⟩
          rw [h1.1, h1.2, hzip]
          exact ha
      have hnt : ∀ x ∈ travelInjection env gps (some s.currentNode)
          env.board.node
          (lastActionDistance (processStop env gps bounties s).actions) ++
          [⟨ActionType.ret, none, env.board.name,
            (processStop env gps bounties s).distance +
              (gps s.currentNode env.board.node).distance⟩],
          NonTrade x := by
        intro x hx
        rcases List.mem_append.mp hx with hx1 | hx1
        · exact travelInjection_nonTrade env gps _ _ _ x hx1
        · rw [List.mem_singleton] at hx1
          subst hx1
          exact ⟨by simp, by simp⟩
      have haOK : CountOK (processStop env gps bounties s).states
          (addTravelSteps env gps (processStop env gps bounties s).actions
            (some s.currentNode) env.board.node ++
          [⟨ActionType.ret, none, env.board.name,
            (processStop env gps bounties s).distance +
              (gps s.currentNode env.board.node).distance⟩]) := by
        rw [addTravelSteps, List.append_assoc]
        exact hpOK.append_nonTrade hnt
      have hterm : deliveriesCompleted
          ((processStop env gps bounties s).states.map Prod.snd) = true →
          ∀ (T : List Action), (∀ x ∈ T, NonTrade x) →
          RouteCountOK bounties
            ((processStop env gps bounties s).actions ++ T) := by
        intro hc T hT
        exact countOK_completed_routeCountOK (hpOK.append_nonTrade hT) hfst
          (deliveriesCompleted_pairs hc)
      simp only [searchLoop] at h
      split at h
      · exact ih rest _ _ r hrest h
      · split at h
        · exact ih rest _ _ r hrest h
        · split at h
          · exact ih rest _ _ r hrest h
          · split at h
            · -- all deliveries completed
              split at h
              · -- round trip away from the board
                split at h
                · -- first terminal state: returned immediately
                  injection h with h1
                  subst h1
                  have hres := hterm (by assumption)
                    _ hnt
                  rw [← List.append_assoc, ← addTravelSteps] at hres
                  exact hres
                · exact ih _ _ _ r (hsucc _ _ haOK) h
              · split at h
                · injection h with h1
                  subst h1
                  simpa using hterm (by assumption) [] (by simp)
                · exact ih _ _ _ r (hsucc _ _ hpOK) h
            · exact ih _ _ _ r (hsucc _ _ hpOK) h

/-- The initial search state (all NOT_STARTED, no actions) satisfies the
count invariant. -/
theorem countOK_init (bounties : List BountyId) :
    CountOK (bounties.zip (bounties.map fun _ => BountyStatus.notStarted))
      [] := by
  have hall : ∀ p ∈ bounties.zip
      (bounties.map fun _ => BountyStatus.notStarted),
      p.2 = BountyStatus.notStarted := by
    intro p hp
    have h2 := (List.of_mem_zip hp).2
    simp only [List.mem_map] at h2
    obtain ⟨a, _, ha⟩ := h2
    exact ha.symm
  refine ⟨?_, ?_, ?_, ?_, ?_⟩
  · intro b
    rw [buyCount_nil]
    symm
    simp only [icCount, List.length_eq_zero, List.filter_eq_nil_iff]
    intro p hp
    simp [hall p hp]
  · intro b
    rw [sellCount_nil]
    symm
    simp only [cCount, List.length_eq_zero, List.filter_eq_nil_iff]
    intro p hp
    simp [hall p hp]
  · intro n b
    simp [sellCount_nil, buyCount_nil]
  · intro n
    simp [buyTot_nil, sellTot_nil]
  · rw [buyTot_nil, sellTot_nil]
    symm
    simp only [ipTot, List.length_eq_zero, List.filter_eq_nil_iff,
      Nat.add_eq, Nat.zero_add]
    intro p hp
    simp [hall p hp]

/-- C6: along every Solution returned by `findBestRoute`, the inventory in
use never exceeds the configured limit: after any prefix of the action
sequence, 6 capacity units per live purchase (buys minus sells so far)
stay within `inventorySpace = 24` — buys happen only while a 6-unit
quantum is free. -/
theorem findBestRoute_capacity (env : SearchEnv) (bounties : List BountyId)
    (gps : GPSFun) (threshold : ℚ) (roundTrip : Bool) (fuel : ℕ)
    (r : RouteResult)
    (h : findBestRoute env bounties gps threshold roundTrip fuel = some r) :
    ∀ n, 6 * (buyTot (r.actions.take n) : ℚ) ≤
      6 * (sellTot (r.actions.take n) : ℚ) + inventorySpace := by
  intro n
  have hq : QueueCountOK bounties
      [⟨0, none, env.board.node,
        bounties.map (fun _ => BountyStatus.notStarted), []⟩] := by
    intro t ht
    rw [List.mem_singleton] at ht
    subst ht
    exact ⟨by simp, countOK_init bounties⟩
  have hro := searchLoop_routeCountOK env gps bounties roundTrip fuel _ _
    threshold r hq h
  have hcap := hro.2.2.2 n
  have hcast : (buyTot (r.actions.take n) : ℚ) ≤
      (sellTot (r.actions.take n) : ℚ) + 4 := by exact_mod_cast hcap
  unfold inventorySpace
  linarith

/-- Witness for C6: the two-bounty round trip on `ex1Env`. -/
theorem findBestRoute_capacity_witness :
    6 * (buyTot ((RouteResult.mk
      [⟨ActionType.buy, some "A", "S", 13⟩,
        ⟨ActionType.buy, some "B", "S", 13⟩,
        ⟨ActionType.sell, some "A", "B0", 27⟩,
        ⟨ActionType.sell, some "B", "B1", 33⟩,
        ⟨ActionType.ret, none, "Bounty Board", 40⟩] 40).actions.take 2) :
          ℚ) ≤
      6 * (sellTot ((RouteResult.mk
      [⟨ActionType.buy, some "A", "S", 13⟩,
        ⟨ActionType.buy, some "B", "S", 13⟩,
        ⟨ActionType.sell, some "A", "B0", 27⟩,
        ⟨ActionType.sell, some "B", "B1", 33⟩,
        ⟨ActionType.ret, none, "Bounty Board", 40⟩] 40).actions.take 2) :
          ℚ) + inventorySpace :=
  findBestRoute_capacity ex1Env ["A", "B"] ex1Gps maxSafeInteger true 100 _
    (by with_unfolding_all decide) 2

/-- C10: every Solution returned by `findBestRoute` contains exactly one
buy and one sell per task instance of the input subset (counted per id
with multiplicity), and in every prefix of the action sequence the sells
of an id never outnumber its buys (each instance is bought before it is
sold). -/
theorem findBestRoute_buy_sell_pairing (env : SearchEnv)
    (bounties : List BountyId) (gps : GPSFun) (threshold : ℚ)
    (roundTrip : Bool) (fuel : ℕ) (r : RouteResult)
    (h : findBestRoute env bounties gps threshold roundTrip fuel = some r) :
    (∀ b, buyCount r.actions b = bounties.count b ∧
      sellCount r.actions b = bounties.count b) ∧
    (∀ n b, sellCount (r.actions.take n) b ≤
      buyCount (r.actions.take n) b) := by
  have hq : QueueCountOK bounties
      [⟨0, none, env.board.node,
        bounties.map (fun _ => BountyStatus.notStarted), []⟩] := by
    intro t ht
    rw [List.mem_singleton] at ht
    subst ht
    exact ⟨by simp, countOK_init bounties⟩
  have hro := searchLoop_routeCountOK env gps bounties roundTrip fuel _ _
    threshold r hq h
  exact ⟨fun b => ⟨hro.1 b, hro.2.1 b⟩, hro.2.2.1⟩

/-- Witness for C10: the single-bounty run on `ex1Env`. -/
theorem findBestRoute_buy_sell_pairing_witness :
    (∀ b, buyCount (RouteResult.mk
      [⟨ActionType.buy, some "A", "S", 13⟩,
        ⟨ActionType.sell, some "A", "B0", 27⟩] 27).actions b =
        (["A"].count b) ∧
      sellCount (RouteResult.mk
      [⟨ActionType.buy, some "A", "S", 13⟩,
        ⟨ActionType.sell, some "A", "B0", 27⟩] 27).actions b =
        (["A"].count b)) ∧
    (∀ n b, sellCount ((RouteResult.mk
      [⟨ActionType.buy, some "A", "S", 13⟩,
        ⟨ActionType.sell, some "A", "B0", 27⟩] 27).actions.take n) b ≤
      buyCount ((RouteResult.mk
      [⟨ActionType.buy, some "A", "S", 13⟩,
        ⟨ActionType.sell, some "A", "B0", 27⟩] 27).actions.take n) b) :=
  findBestRoute_buy_sell_pairing ex1Env ["A"] ex1Gps maxSafeInteger false
    100 _ (by with_unfolding_all decide)

/-! ### C7: monotonicity of cumulative time along the action sequence -/

/-- Non-decreasing `distance` along consecutive actions. -/
def ActMono (l : List Action) : Prop :=
  List.Chain' (fun a₁ a₂ => a₁.distance ≤ a₂.distance) l

theorem lastActionDistance_concat (l : List Action) (x : Action) :
    lastActionDistance (l ++ [x]) = x.distance := by
  simp [lastActionDistance, List.getLast?_concat]

theorem lastActionDistance_append_le {A T : List Action} {C : ℚ}
    (hA : lastActionDistance A ≤ C) (hT : ∀ a ∈ T, a.distance ≤ C) :
    lastActionDistance (A ++ T) ≤ C := by
  rcases List.eq_nil_or_concat T with rfl | ⟨T', x, rfl⟩
  · simpa using hA
  · rw [List.concat_eq_append, ← List.append_assoc,
      lastActionDistance_concat]
    exact hT x (by simp)

theorem actMono_append {A T : List Action} (hA : ActMono A) (hT : ActMono T)
    (hge : ∀ a ∈ T, lastActionDistance A ≤ a.distance) :
    ActMono (A ++ T) := by
  refine List.chain'_append.2 ⟨hA, hT, ?_⟩
  intro x hx y hy
  have h1 : lastActionDistance A = x.distance := by
    rw [Option.mem_def] at hx
    simp [lastActionDistance, hx]
  rw [← h1]
  exact hge y (List.mem_of_mem_head? hy)

theorem actMono_of_length_le_one {T : List Action} (h : T.length ≤ 1) :
    ActMono T := by
  match T with
  | [] => exact List.chain'_nil
  | [x] => exact List.chain'_singleton x
  | x :: y :: T' => simp at h

/-- Constraints on the distance oracle under which the injected travel
steps keep the action sequence monotone, modelled from the spec: portal
edges carry a fixed non-negative teleport cost bounded by the segment's
travel time, and a path's interior crosses at most one portal. -/
structure GPSMonoOK (env : SearchEnv) (gps : GPSFun) : Prop where
  nonneg : ∀ u v, 0 ≤ (gps u v).distance
  injSingle : ∀ u v base,
    (travelInjection env gps (some u) v base).length ≤ 1
  injBound : ∀ u v base a, a ∈ travelInjection env gps (some u) v base →
    base ≤ a.distance ∧ a.distance ≤ base + (gps u v).distance

/-- Travel time still owed for the segment that brought the search to the
current node (none for the initial state). -/
def travelBudget (gps : GPSFun) (prev : Option Node) (cur : Node) : ℚ :=
  match prev with
  | some p => (gps p cur).distance
  | none => 0

theorem travelBudget_nonneg {env : SearchEnv} {gps : GPSFun}
    (hg : GPSMonoOK env gps) (prev : Option Node) (cur : Node) :
    0 ≤ travelBudget gps prev cur := by
  match prev with
  | none => simp [travelBudget]
  | some p => exact hg.nonneg p cur

theorem travelInjection_bounds {env : SearchEnv} {gps : GPSFun}
    (hg : GPSMonoOK env gps) (prev : Option Node) (cur : Node) (base : ℚ) :
    ∀ a ∈ travelInjection env gps prev cur base,
      base ≤ a.distance ∧ a.distance ≤ base + travelBudget gps prev cur := by
  match prev with
  | none => intro a ha; simp [travelInjection] at ha
  | some p => exact fun a ha => hg.injBound p cur base a ha

theorem travelInjection_len {env : SearchEnv} {gps : GPSFun}
    (hg : GPSMonoOK env gps) (prev : Option Node) (cur : Node) (base : ℚ) :
    (travelInjection env gps prev cur base).length ≤ 1 := by
  match prev with
  | none => simp [travelInjection]
  | some p => exact hg.injSingle p cur base

/-- Accumulator invariant for the monotonicity argument: the actions so
far are monotone, and the last recorded distance (plus the still-owed
travel time, while no action has been taken at this stop) is below the
running distance. -/
def AccMono (gps : GPSFun) (prev : Option Node) (cur : Node)
    (acc : Proc) : Prop :=
  ActMono acc.actions ∧
  (if acc.nBought + acc.nSold = 0 then
    lastActionDistance acc.actions + travelBudget gps prev cur ≤
      acc.distance
  else lastActionDistance acc.actions ≤ acc.distance)

theorem accMono_step {env : SearchEnv} {gps : GPSFun} {prev : Option Node}
    {cur : Node} (hg : GPSMonoOK env gps) {acc : Proc}
    (h : AccMono gps prev cur acc) (x : Action)
    (hx : acc.distance ≤ x.distance) :
    ActMono ((if acc.nBought + acc.nSold = 0 then
        addTravelSteps env gps acc.actions prev cur
      else acc.actions) ++ [x]) ∧
    lastActionDistance ((if acc.nBought + acc.nSold = 0 then
        addTravelSteps env gps acc.actions prev cur
      else acc.actions) ++ [x]) = x.distance := by
  have hacts : ActMono (if acc.nBought + acc.nSold = 0 then
      addTravelSteps env gps acc.actions prev cur
    else acc.actions) ∧
      lastActionDistance (if acc.nBought + acc.nSold = 0 then
        addTravelSteps env gps acc.actions prev cur
      else acc.actions) ≤ acc.distance := by
    split
    · rename_i hzero
      have hbud : lastActionDistance acc.actions +
          travelBudget gps prev cur ≤ acc.distance := by
        have h2 := h.2
        rw [if_pos hzero] at h2
        exact h2
      have hlast : lastActionDistance acc.actions ≤ acc.distance := by
        have := travelBudget_nonneg hg prev cur
        linarith
      have hTb := travelInjection_bounds hg prev cur
        (lastActionDistance acc.actions)
      constructor
      · exact actMono_append h.1
          (actMono_of_length_le_one (travelInjection_len hg prev cur _))
          (fun a ha => (hTb a ha).1)
      · exact lastActionDistance_append_le hlast
          (fun a ha => le_trans (hTb a ha).2 hbud)
    · rename_i hzero
      have h2 := h.2
      rw [if_neg hzero] at h2
      exact ⟨h.1, h2⟩
  constructor
  · exact actMono_append hacts.1 (List.chain'_singleton x)
      (fun a ha => by
        rw [List.mem_singleton] at ha
        subst ha
        exact le_trans hacts.2 hx)
  · exact lastActionDistance_concat _ x

theorem accMono_of_fields {gps : GPSFun} {prev : Option Node} {cur : Node}
    (acc : Proc) (h1 : ActMono acc.actions)
    (h2 : lastActionDistance acc.actions ≤ acc.distance)
    (h3 : acc.nBought + acc.nSold ≠ 0) : AccMono gps prev cur acc := by
  refine ⟨h1, ?_⟩
  rw [if_neg h3]
  exact h2

theorem sellPhase_accMono (env : SearchEnv) (gps : GPSFun)
    (prev : Option Node) (cur : Node) (hg : GPSMonoOK env gps) :
    ∀ (rem : List (BountyId × BountyStatus)) (acc : Proc),
      AccMono gps prev cur acc →
      AccMono gps prev cur (sellPhase env gps prev cur rem acc) := by
  intro rem
  induction rem with
  | nil => intro acc h; simpa [sellPhase] using h
  | cons hd tl ih =>
    intro acc h
    obtain ⟨b, st⟩ := hd
    by_cases hcur : cur ≠ ((env.data b).buyer.node)
    · rw [show sellPhase env gps prev cur ((b, st) :: tl) acc =
        sellPhase env gps prev cur tl
          { acc with states := acc.states ++ [(b, st)] } from by
          simp only [sellPhase]; rw [if_pos hcur]]
      exact ih _ h
    · by_cases hst : st ≠ BountyStatus.inProgress
      · rw [show sellPhase env gps prev cur ((b, st) :: tl) acc =
          sellPhase env gps prev cur tl
            { acc with states := acc.states ++ [(b, st)] } from by
            simp only [sellPhase]; rw [if_neg hcur, if_pos hst]]
        exact ih _ h
      · rw [show sellPhase env gps prev cur ((b, st) :: tl) acc =
          sellPhase env gps prev cur tl
            { states := acc.states ++ [(b, BountyStatus.completed)]
              actions := (if acc.nBought + acc.nSold = 0 then
                  addTravelSteps env gps acc.actions prev cur
                else acc.actions) ++
                [⟨ActionType.sell, some b, (env.data b).buyer.name,
                  acc.distance + timeToSell⟩]
              distance := acc.distance + timeToSell
              nBought := acc.nBought
              nSold := acc.nSold + 1 } from by
            simp only [sellPhase]; rw [if_neg hcur, if_neg hst]]
        apply ih
        have hstep := accMono_step hg h
          ⟨ActionType.sell, some b, (env.data b).buyer.name,
            acc.distance + timeToSell⟩
          (by
            show acc.distance ≤ acc.distance + timeToSell
            unfold timeToSell
            linarith)
        exact accMono_of_fields _ hstep.1 (le_of_eq hstep.2) (by simp)

theorem buyPhase_accMono (env : SearchEnv) (gps : GPSFun)
    (prev : Option Node) (cur : Node) (hg : GPSMonoOK env gps) :
    ∀ (rem : List (BountyId × BountyStatus)) (acc : Proc),
      AccMono gps prev cur acc →
      AccMono gps prev cur (buyPhase env gps prev cur rem acc) := by
  intro rem
  induction rem with
  | nil => intro acc h; simpa [buyPhase] using h
  | cons hd tl ih =>
    intro acc h
    obtain ⟨b, st⟩ := hd
    by_cases hcap : ¬ canPurchaseMoreItems
        ((acc.states ++ (b, st) :: tl).map Prod.snd)
    · rw [show buyPhase env gps prev cur ((b, st) :: tl) acc =
        { acc with states := acc.states ++ (b, st) :: tl } from by
          simp only [buyPhase]; rw [if_pos hcap]]
      exact h
    · by_cases hcur : cur ≠ ((env.data b).seller.node)
      · rw [show buyPhase env gps prev cur ((b, st) :: tl) acc =
          buyPhase env gps prev cur tl
            { acc with states := acc.states ++ [(b, st)] } from by
            simp only [buyPhase]; rw [if_neg hcap, if_pos hcur]]
        exact ih _ h
      · by_cases hst : st ≠ BountyStatus.notStarted
        · rw [show buyPhase env gps prev cur ((b, st) :: tl) acc =
            buyPhase env gps prev cur tl
              { acc with states := acc.states ++ [(b, st)] } from by
              simp only [buyPhase]
              rw [if_neg hcap, if_neg hcur, if_pos hst]]
          exact ih _ h
        · push_neg at hst
          subst hst
          rw [show buyPhase env gps prev cur
              ((b, BountyStatus.notStarted) :: tl) acc =
            buyPhase env gps prev cur tl
              { states := acc.states ++ [(b, BountyStatus.inProgress)]
                actions := (if acc.nBought + acc.nSold = 0 then
                    addTravelSteps env gps acc.actions prev cur
                  else acc.actions) ++
                  [⟨ActionType.buy, some b, (env.data b).seller.name,
                    if acc.nBought = 0 then acc.distance + timeToBuy
                    else acc.distance⟩]
                distance := if acc.nBought = 0 then
                    acc.distance + timeToBuy
                  else acc.distance
                nBought := acc.nBought + 1
                nSold := acc.nSold } from by
            simp only [buyPhase]
            rw [if_neg hcap, if_neg hcur, if_neg (by simp)]]
          apply ih
          have hstep := accMono_step hg h
            ⟨ActionType.buy, some b, (env.data b).seller.name,
              if acc.nBought = 0 then acc.distance + timeToBuy
              else acc.distance⟩
            (by
              show acc.distance ≤ if acc.nBought = 0 then
                acc.distance + timeToBuy else acc.distance
              split
              · unfold timeToBuy; linarith
              · exact le_refl _)
          exact accMono_of_fields _ hstep.1 (le_of_eq hstep.2) (by simp)

/-- Processing a stop preserves monotonicity, and leaves the last recorded
distance below the running distance. -/
theorem processStop_accMono (env : SearchEnv) (gps : GPSFun)
    (bounties : List BountyId) (s : RouteState) (hg : GPSMonoOK env gps)
    (hm : ActMono s.actions)
    (hb : lastActionDistance s.actions +
      travelBudget gps s.previousNode s.currentNode ≤ s.distance) :
    ActMono (processStop env gps bounties s).actions ∧
      lastActionDistance (processStop env gps bounties s).actions ≤
        (processStop env gps bounties s).distance := by
  have h0 : AccMono gps s.previousNode s.currentNode
      ⟨[], s.actions, s.distance, 0, 0⟩ := ⟨hm, by simpa using hb⟩
  have h1 := sellPhase_accMono env gps s.previousNode s.currentNode hg
    (bounties.zip s.bountyStates) _ h0
  have h2 : AccMono gps s.previousNode s.currentNode
      { sellPhase env gps s.previousNode s.currentNode
          (bounties.zip s.bountyStates)
          ⟨[], s.actions, s.distance, 0, 0⟩ with states := [] } := h1
  have h3 := buyPhase_accMono env gps s.previousNode s.currentNode hg
    (sellPhase env gps s.previousNode s.currentNode
      (bounties.zip s.bountyStates) ⟨[], s.actions, s.distance, 0, 0⟩).states
    _ h2
  refine ⟨h3.1, ?_⟩
  have h4 := h3.2
  split at h4
  · have := travelBudget_nonneg hg s.previousNode s.currentNode
    unfold processStop
    linarith [h4]
  · exact h4

theorem mem_enqueueTargets_shape {gps : GPSFun} {dist : ℚ}
    {acts : List Action} {sts : List BountyStatus} {cur : Node} {best : ℚ} :
    ∀ (targets : List Node) (pq : List RouteState) (x : RouteState),
      x ∈ enqueueTargets gps dist acts sts cur best targets pq →
      x ∈ pq ∨ ∃ nn, x =
        ⟨dist + (gps cur nn).distance, some cur, nn, sts, acts⟩ := by
  intro targets
  induction targets with
  | nil =>
    intro pq x h
    exact Or.inl (by simpa [enqueueTargets] using h)
  | cons t ts ih =>
    intro pq x h
    rw [show enqueueTargets gps dist acts sts cur best (t :: ts) pq =
      enqueueTargets gps dist acts sts cur best ts
        (if dist + (gps cur t).distance < best then
          pqInsert ⟨dist + (gps cur t).distance, some cur, t, sts, acts⟩ pq
        else pq) from rfl] at h
    rcases ih _ x h with h1 | h1
    · split at h1
      · rcases mem_pqInsert h1 with h2 | h2
        · exact Or.inr ⟨t, h2⟩
        · exact Or.inl h2
      · exact Or.inl h1
    · exact Or.inr h1

theorem mem_enqueueSuccessors_shape {env : SearchEnv} {gps : GPSFun}
    {dist : ℚ} {acts : List Action}
    {pairs : List (BountyId × BountyStatus)} {cur : Node} {best : ℚ}
    {pq : List RouteState} {x : RouteState}
    (h : x ∈ enqueueSuccessors env gps dist acts pairs cur best pq) :
    x ∈ pq ∨ ∃ nn, x =
      ⟨dist + (gps cur nn).distance, some cur, nn, pairs.map Prod.snd,
        acts⟩ := by
  simp only [enqueueSuccessors] at h
  rcases mem_enqueueTargets_shape _ _ _ h with h1 | h1
  · split at h1
    · rcases mem_enqueueTargets_shape _ _ _ h1 with h2 | h2
      · exact Or.inl h2
      · exact Or.inr h2
    · exact Or.inl h1
  · exact Or.inr h1

/-- Queue invariant for monotonicity: every queued state's actions are
monotone, and its last recorded distance plus the owed travel time stays
below its distance. -/
def QueueMono (gps : GPSFun) (pq : List RouteState) : Prop :=
  ∀ s ∈ pq, ActMono s.actions ∧
    lastActionDistance s.actions +
      travelBudget gps s.previousNode s.currentNode ≤ s.distance

theorem searchLoop_actMono (env : SearchEnv) (gps : GPSFun)
    (bounties : List BountyId) (roundTrip : Bool)
    (hg : GPSMonoOK env gps) :
    ∀ (fuel : ℕ) (pq : List RouteState) (visited : Visited) (best : ℚ)
      (r : RouteResult),
      QueueMono gps pq →
      searchLoop env gps bounties roundTrip fuel pq visited best = some r →
      ActMono r.actions := by
  intro fuel
  induction fuel with
  | zero =>
    intro pq visited best r _ h
    simp [searchLoop] at h
  | succ n ih =>
    intro pq visited best r hpq h
    match pq with
    | [] => simp [searchLoop] at h
    | s :: rest =>
      have hs := hpq s (by simp)
      have hrest : QueueMono gps rest := fun t ht => hpq t (by simp [ht])
      have hp := processStop_accMono env gps bounties s hg hs.1 hs.2
      have hsucc : ∀ (d : ℚ) (a : List Action), ActMono a →
          lastActionDistance a ≤ d →
          QueueMono gps
            (enqueueSuccessors env gps d a
              (processStop env gps bounties s).states s.currentNode best
              rest) := by
        intro d a ha hla t ht
        rcases mem_enqueueSuccessors_shape ht with h1 | h1
        · exact hrest t h1
        · obtain ⟨nn, rfl⟩ := h1
          refine ⟨ha, ?_⟩
          show lastActionDistance a + (gps s.currentNode nn).distance ≤
            d + (gps s.currentNode nn).distance
          linarith
      have hretb : ∀ a ∈ travelInjection env gps (some s.currentNode)
          env.board.node
          (lastActionDistance (processStop env gps bounties s).actions),
          lastActionDistance (processStop env gps bounties s).actions ≤
            a.distance ∧ a.distance ≤
            (processStop env gps bounties s).distance +
              (gps s.currentNode env.board.node).distance := by
        intro a ha
        have hb := hg.injBound s.currentNode env.board.node _ a ha
        exact ⟨hb.1, le_trans hb.2 (by linarith [hp.2])⟩
      have ha3 : ActMono (addTravelSteps env gps
          (processStop env gps bounties s).actions (some s.currentNode)
          env.board.node ++
        [⟨ActionType.ret, none, env.board.name,
          (processStop env gps bounties s).distance +
            (gps s.currentNode env.board.node).distance⟩]) ∧
          lastActionDistance (addTravelSteps env gps
            (processStop env gps bounties s).actions (some s.currentNode)
            env.board.node ++
          [⟨ActionType.ret, none, env.board.name,
            (processStop env gps bounties s).distance +
              (gps s.currentNode env.board.node).distance⟩]) =
          (processStop env gps bounties s).distance +
            (gps s.currentNode env.board.node).distance := by
        have hmid : ActMono (addTravelSteps env gps
            (processStop env gps bounties s).actions (some s.currentNode)
            env.board.node) := by
          rw [addTravelSteps]
          exact actMono_append hp.1
            (actMono_of_length_le_one
              (hg.injSingle s.currentNode env.board.node _))
            (fun a ha => (hretb a ha).1)
        have hmidlast : lastActionDistance (addTravelSteps env gps
            (processStop env gps bounties s).actions (some s.currentNode)
            env.board.node) ≤
            (processStop env gps bounties s).distance +
              (gps s.currentNode env.board.node).distance := by
          rw [addTravelSteps]
          have hnn := hg.nonneg s.currentNode env.board.node
          exact lastActionDistance_append_le
            (le_trans hp.2 (by linarith))
            (fun a ha => (hretb a ha).2)
        constructor
        · exact actMono_append hmid (List.chain'_singleton _)
            (fun a ha => by
              rw [List.mem_singleton] at ha
              subst ha
              exact hmidlast)
        · exact lastActionDistance_concat _ _
      simp only [searchLoop] at h
      split at h
      · exact ih rest _ _ r hrest h
      · split at h
        · exact ih rest _ _ r hrest h
        · split at h
          · exact ih rest _ _ r hrest h
          · split at h
            · split at h
              · split at h
                · injection h with h1
                  subst h1
                  exact ha3.1
                · exact ih _ _ _ r
                    (hsucc _ _ ha3.1 (le_of_eq ha3.2)) h
              · split at h
                · injection h with h1
                  subst h1
                  exact hp.1
                · exact ih _ _ _ r (hsucc _ _ hp.1 hp.2) h
            · exact ih _ _ _ r (hsucc _ _ hp.1 hp.2) h

/-- C7 amended: along every Solution returned by `findBestRoute`, the
recorded cumulative time is monotonically non-decreasing across
consecutive actions, provided each travel segment injects at most one
teleport step whose time lies between the previous action's time and it
plus the segment's travel time (non-negative travel times).  With two
portals on one path, or a teleport time exceeding the segment time, the
injected steps can decrease (see the counterexample). -/
theorem findBestRoute_time_monotone (env : SearchEnv)
    (bounties : List BountyId) (gps : GPSFun) (threshold : ℚ)
    (roundTrip : Bool) (fuel : ℕ) (r : RouteResult)
    (hg : GPSMonoOK env gps)
    (h : findBestRoute env bounties gps threshold roundTrip fuel = some r) :
    List.Chain' (fun a₁ a₂ => a₁.distance ≤ a₂.distance) r.actions := by
  have hq : QueueMono gps
      [⟨0, none, env.board.node,
        bounties.map (fun _ => BountyStatus.notStarted), []⟩] := by
    intro t ht
    rw [List.mem_singleton] at ht
    subst ht
    refine ⟨List.chain'_nil, ?_⟩
    show lastActionDistance [] + travelBudget gps none env.board.node ≤ 0
    simp [lastActionDistance, travelBudget]
  exact searchLoop_actMono env gps bounties roundTrip hg fuel _ _ threshold
    r hq h

/-- On `ex1Gps` every path is direct, so no travel steps are injected. -/
theorem ex1_travelInjection (env : SearchEnv) (u v : Node) (base : ℚ) :
    travelInjection env ex1Gps (some u) v base = [] := by
  unfold travelInjection ex1Gps
  by_cases h : u = v <;> simp [h, pathInterior]

theorem ex1_gpsMonoOK : GPSMonoOK ex1Env ex1Gps := by
  refine ⟨?_, ?_, ?_⟩
  · intro u v
    unfold ex1Gps
    split
    · norm_num
    · show (0 : ℚ) ≤ _
      split <;> norm_num
  · intro u v base
    rw [ex1_travelInjection]
    simp
  · intro u v base a ha
    rw [ex1_travelInjection] at ha
    simp at ha

/-- Witness for the amended C7 at a concrete input: the single-bounty run
on `ex1Env` yields a monotone action sequence. -/
theorem findBestRoute_time_monotone_witness :
    List.Chain' (fun a₁ a₂ : Action => a₁.distance ≤ a₂.distance)
      (RouteResult.mk
        [⟨ActionType.buy, some "A", "S", 13⟩,
          ⟨ActionType.sell, some "A", "B0", 27⟩] 27).actions :=
  findBestRoute_time_monotone ex1Env ["A"] ex1Gps maxSafeInteger false 100
    _ ex1_gpsMonoOK (by with_unfolding_all decide)

/-! ### Concrete instance for the route planner (example 2)

A path from the depot (node 0) to the seller (node 1) that crosses both
portals (nodes 98 and 99): the Crenopolis Market portal at teleport time
10 is crossed before the Crenopolis Outskirts portal at teleport time 1,
so the two injected teleport actions record 10 and then 1. -/

def ex2Data : BountyId → BountyDef := fun b =>
  if b = "A" then ⟨"A", 10, mref 1 "S", mref 2 "B"⟩
  else dummyBounty

def ex2Gps : GPSFun := fun u v =>
  if u = v then ⟨0, [u]⟩
  else
    match u, v with
    | 0, 1 => ⟨14, [0, 98, 99, 1]⟩
    | 1, 0 => ⟨14, [1, 99, 98, 0]⟩
    | 1, 2 => ⟨5, [1, 2]⟩
    | 2, 1 => ⟨5, [2, 1]⟩
    | 0, 2 => ⟨19, [0, 2]⟩
    | 2, 0 => ⟨19, [2, 0]⟩
    | _, _ => ⟨1000, [u, v]⟩

def ex2Env : SearchEnv :=
  ⟨ex2Data, mref 0 "Bounty Board", ⟨98, "Crenopolis Market", 10⟩,
    ⟨99, "Crenopolis Outskirts", 1⟩⟩

/-- C7 counterexample: on `ex2Env` the returned Solution's action sequence
is not monotonically non-decreasing — the two teleports injected for the
depot-to-seller segment record times 10 and then 1, because each teleport
is stamped (previous action's distance) + (its own portal's teleport
time), not chained through the earlier teleport. -/
theorem findBestRoute_monotonicity_fails :
    findBestRoute ex2Env ["A"] ex2Gps maxSafeInteger false 100 =
      some (RouteResult.mk
        [⟨ActionType.teleport, none, "Crenopolis Market", 10⟩,
          ⟨ActionType.teleport, none, "Crenopolis Outskirts", 1⟩,
          ⟨ActionType.buy, some "A", "S", 17⟩,
          ⟨ActionType.sell, some "A", "B", 26⟩] 26) ∧
    ¬ List.Chain' (fun a₁ a₂ : Action => a₁.distance ≤ a₂.distance)
      [⟨ActionType.teleport, none, "Crenopolis Market", 10⟩,
        ⟨ActionType.teleport, none, "Crenopolis Outskirts", 1⟩,
        ⟨ActionType.buy, some "A", "S", 17⟩,
        ⟨ActionType.sell, some "A", "B", 26⟩] := by
  constructor
  · with_unfolding_all decide
  · intro hch
    have h12 := (List.chain'_cons.mp hch).1
    norm_num at h12

/-! ### The combination selector: `findBestBounties` -/

/-- Sorted copy of a bounty list (the repo's canonical order-independent
content representation, cf. `allBounties.slice().sort()`). -/
def sortBounties (l : List BountyId) : List BountyId :=
  l.insertionSort (fun a b => a ≤ b)

/-- Modelled from the spec: `combinations(items, k)` (the module
`combinations.ts` is not under the sources).  Produces every distinct
k-subset of the input multiset — duplicate ids are distinguishable slots
for enumeration, and the resulting subsets are compared by content
(order-independent), here via their sorted forms. -/
def combinations (items : List BountyId) (k : ℕ) : List (List BountyId) :=
  go (items.sublistsLen k).reverse []
where
  /-- Keep the first occurrence of each content class, walking the
  reversed sublist enumeration so the result is in enumeration order. -/
  go : List (List BountyId) → List (List BountyId) → List (List BountyId)
    | [], acc => acc
    | c :: rest, acc =>
      if acc.any (fun c2 => sortBounties c = sortBounties c2) then
        go rest acc
      else go rest (c :: acc)

/-- `#estimateMinDistance`: 10 seconds per unique location plus buy/sell
overhead per item; a lower-bound heuristic used purely for ordering. -/
def estimateMinDistance (env : SearchEnv) (combo : List BountyId) : ℚ :=
  let uniqueLocations := (combo.flatMap (fun b =>
    [(env.data b).seller.node, (env.data b).buyer.node])).dedup
  (uniqueLocations.length : ℚ) * 10 +
    (combo.length : ℚ) * (timeToBuy + timeToSell)

/-- One entry of the ranked result list: `{ bounties, actions, distance,
kp }`. -/
structure BountyResult where
  bounties : List BountyId
  actions : List Action
  distance : ℚ
  kp : ℚ
deriving DecidableEq, Repr

/-- Efficiency (KP per second) of a kept result. -/
def effOf (r : BountyResult) : ℚ := r.kp / r.distance

/-- The comparator `(a, b) => b.kp / b.distance - a.kp / a.distance`:
descending efficiency. -/
def effGe (a b : BountyResult) : Prop := effOf b ≤ effOf a

instance : DecidableRel effGe := fun a b =>
  inferInstanceAs (Decidable (effOf b ≤ effOf a))

instance : IsTotal BountyResult effGe :=
  ⟨fun a b => (le_total (effOf b) (effOf a)).imp id id⟩

instance : IsTrans BountyResult effGe :=
  ⟨fun _ _ _ hab hbc => le_trans hbc hab⟩

/-- Pre-computed combo data: `{ combo, kp, estimatedDistance,
estimatedEfficiency }`. -/
structure ComboData where
  combo : List BountyId
  kp : ℚ
  estimatedDistance : ℚ
  estimatedEfficiency : ℚ
deriving Repr

/-- The comparator `(a, b) => b.estimatedEfficiency -
a.estimatedEfficiency`: descending estimated efficiency. -/
def estGe (a b : ComboData) : Prop :=
  b.estimatedEfficiency ≤ a.estimatedEfficiency

instance : DecidableRel estGe := fun a b =>
  inferInstanceAs (Decidable (b.estimatedEfficiency ≤ a.estimatedEfficiency))

/-- `pruningOptions` with defaults `{ 400, 150, 0.95 }`; `Infinity` is
`none`.  `maxCombinations` is destructured by the source but never used to
bound the loop (it only gates a log line). -/
structure PruningOptions where
  maxCombinations : Option ℕ
  maxEvaluations : Option ℕ
  pruningThreshold : ℚ

/-- The state of the evaluation loop: the kept results and the number of
`findBestRoute` evaluations so far. -/
structure EvalState where
  results : List BountyResult
  evaluated : ℕ

/-- One pass of the evaluation loop body after the break checks: evaluate
the combo against the current threshold and update the kept results. -/
def evalStep (env : SearchEnv) (gps : GPSFun) (roundTrip : Bool)
    (numResults : ℕ) (fuel : ℕ) (cd : ComboData) (st : EvalState) :
    EvalState :=
  let threshold := if st.results.length ≥ numResults then
      (match st.results.getLast? with
        | some w => w.distance
        | none => maxSafeInteger)
    else maxSafeInteger
  match findBestRoute env cd.combo gps threshold roundTrip fuel with
  | none => ⟨st.results, st.evaluated + 1⟩
  | some r =>
    let results1 := st.results ++ [⟨cd.combo, r.actions, r.distance, cd.kp⟩]
    let results2 := if results1.length > numResults then
        (results1.insertionSort effGe).take numResults
      else results1
    ⟨results2, st.evaluated + 1⟩

/-- The estimated-efficiency break: pruning enabled, enough results kept,
and the next candidate's estimate below the worst kept efficiency times
the threshold. -/
def estBreak (pruningThreshold : ℚ) (numResults : ℕ) (cd : ComboData)
    (st : EvalState) : Bool :=
  decide (pruningThreshold < 1) &&
  decide (st.results.length ≥ numResults) &&
  (match st.results.getLast? with
    | some worst =>
      decide (cd.estimatedEfficiency <
        worst.kp / worst.distance * pruningThreshold)
    | none => false)

/-- The evaluation-count break: `maxEvaluations` finite and reached while
enough results are kept. -/
def evalBreak (maxEvaluations : Option ℕ) (numResults : ℕ)
    (st : EvalState) : Bool :=
  match maxEvaluations with
  | some m =>
    decide (st.evaluated ≥ m) && decide (st.results.length ≥ numResults)
  | none => false

/-- The evaluation loop over the (sorted) combo data, with the two early
break conditions of the source. -/
def evalLoop (env : SearchEnv) (gps : GPSFun) (roundTrip : Bool)
    (numResults : ℕ) (fuel : ℕ) (maxEvaluations : Option ℕ)
    (pruningThreshold : ℚ) :
    List ComboData → EvalState → EvalState
  | [], st => st
  | cd :: rest, st =>
    if estBreak pruningThreshold numResults cd st then st
    else if evalBreak maxEvaluations numResults st then st
    else
      evalLoop env gps roundTrip numResults fuel maxEvaluations
        pruningThreshold rest
        (evalStep env gps roundTrip numResults fuel cd st)

/-- `findBestBounties(bounties, detectiveLevel,
battleOfFortuneholdCompleted, roundTrip, numResults, pruningOptions)`.
The source builds its `GPS` from the two player parameters; since that
module is not under the sources, the resulting oracle is passed
directly. -/
def findBestBounties (env : SearchEnv) (gps : GPSFun)
    (bounties : List BountyId) (roundTrip : Bool) (numResults : ℕ)
    (po : PruningOptions) (fuel : ℕ) : List BountyResult :=
  let maxComboSize := min bounties.length 6
  let combos := combinations bounties maxComboSize
  let comboData := combos.map (fun c =>
    let kp := ((c.map (fun b => (env.data b).kp)).sum)
    let estimatedDistance := estimateMinDistance env c
    ComboData.mk c kp estimatedDistance (kp / estimatedDistance))
  let sortedData := comboData.insertionSort estGe
  let final := evalLoop env gps roundTrip numResults fuel
    po.maxEvaluations po.pruningThreshold sortedData ⟨[], 0⟩
  final.results.insertionSort effGe

/-- The exhaustive-mode options: `pruningThreshold = 1.0`, unbounded
evaluations. -/
def exhaustivePO : PruningOptions := ⟨none, none, 1⟩

/-- The exhaustive-mode break conditions never fire. -/
theorem estBreak_exhaustive (numResults : ℕ) (cd : ComboData)
    (st : EvalState) : estBreak 1 numResults cd st = false := by
  have h1 : ¬ ((1 : ℚ) < 1) := lt_irrefl 1
  simp [estBreak, h1]

theorem evalBreak_exhaustive (numResults : ℕ) (st : EvalState) :
    evalBreak none numResults st = false := rfl

/-- A run with arbitrary pruning options computes the same state as the
exhaustive loop on some prefix of the combo list. -/
theorem evalLoop_eq_plain (env : SearchEnv) (gps : GPSFun)
    (roundTrip : Bool) (numResults : ℕ) (fuel : ℕ)
    (maxEv : Option ℕ) (pt : ℚ) :
    ∀ (l : List ComboData) (st : EvalState),
      ∃ l₁ l₂, l = l₁ ++ l₂ ∧
        evalLoop env gps roundTrip numResults fuel maxEv pt l st =
        evalLoop env gps roundTrip numResults fuel none 1 l₁ st := by
  intro l
  induction l with
  | nil =>
    intro st
    exact ⟨[], [], rfl, rfl⟩
  | cons cd rest ih =>
    intro st
    by_cases hb : estBreak pt numResults cd st = true
    · refine ⟨[], cd :: rest, rfl, ?_⟩
      rw [show evalLoop env gps roundTrip numResults fuel maxEv pt
        (cd :: rest) st = st from by simp [evalLoop, hb]]
      rfl
    · by_cases hb2 : evalBreak maxEv numResults st = true
      · refine ⟨[], cd :: rest, rfl, ?_⟩
        rw [show evalLoop env gps roundTrip numResults fuel maxEv pt
          (cd :: rest) st = st from by simp [evalLoop, hb, hb2]]
        rfl
      · obtain ⟨m₁, m₂, hm, he⟩ :=
          ih (evalStep env gps roundTrip numResults fuel cd st)
        refine ⟨cd :: m₁, m₂, by rw [List.cons_append, ← hm], ?_⟩
        rw [show evalLoop env gps roundTrip numResults fuel maxEv pt
          (cd :: rest) st = evalLoop env gps roundTrip numResults fuel
            maxEv pt rest
            (evalStep env gps roundTrip numResults fuel cd st) from by
          simp [evalLoop, hb, hb2]]
        rw [he]
        rw [show evalLoop env gps roundTrip numResults fuel none 1
          (cd :: m₁) st = evalLoop env gps roundTrip numResults fuel
            none 1 m₁
            (evalStep env gps roundTrip numResults fuel cd st) from by
          simp [evalLoop, estBreak_exhaustive, evalBreak_exhaustive]]

/-- The exhaustive loop folds over list concatenation. -/
theorem evalLoop_plain_append (env : SearchEnv) (gps : GPSFun)
    (roundTrip : Bool) (numResults : ℕ) (fuel : ℕ) :
    ∀ (l₁ l₂ : List ComboData) (st : EvalState),
      evalLoop env gps roundTrip numResults fuel none 1 (l₁ ++ l₂) st =
      evalLoop env gps roundTrip numResults fuel none 1 l₂
        (evalLoop env gps roundTrip numResults fuel none 1 l₁ st) := by
  intro l₁
  induction l₁ with
  | nil => intro l₂ st; rfl
  | cons cd rest ih =>
    intro l₂ st
    rw [List.cons_append]
    rw [show evalLoop env gps roundTrip numResults fuel none 1
      (cd :: (rest ++ l₂)) st = evalLoop env gps roundTrip numResults fuel
        none 1 (rest ++ l₂)
        (evalStep env gps roundTrip numResults fuel cd st) from by
      simp [evalLoop, estBreak_exhaustive, evalBreak_exhaustive]]
    rw [show evalLoop env gps roundTrip numResults fuel none 1
      (cd :: rest) st = evalLoop env gps roundTrip numResults fuel
        none 1 rest
        (evalStep env gps roundTrip numResults fuel cd st) from by
      simp [evalLoop, estBreak_exhaustive, evalBreak_exhaustive]]
    exact ih l₂ _

/-- `st₂` keeps, for every kept result of `st₁`, a result at least as
efficient. -/
def Better (st₁ st₂ : EvalState) : Prop :=
  ∀ s ∈ st₁.results, ∃ t ∈ st₂.results, effOf s ≤ effOf t

theorem better_rfl (st : EvalState) : Better st st :=
  fun s hs => ⟨s, hs, le_refl _⟩

theorem better_trans {st₁ st₂ st₃ : EvalState} (h₁ : Better st₁ st₂)
    (h₂ : Better st₂ st₃) : Better st₁ st₃ := by
  intro s hs
  obtain ⟨t, ht, hle⟩ := h₁ s hs
  obtain ⟨u, hu, hle2⟩ := h₂ t ht
  exact ⟨u, hu, le_trans hle hle2⟩

/-- The head of the sorted result list dominates every member. -/
theorem head_max_insertionSort (l : List BountyResult) (hl : l ≠ []) :
    ∃ h rest, l.insertionSort effGe = h :: rest ∧
      ∀ s ∈ l, effOf s ≤ effOf h := by
  have hsort := List.sorted_insertionSort effGe l
  cases hs : l.insertionSort effGe with
  | nil =>
    have hperm := List.perm_insertionSort effGe l
    rw [hs] at hperm
    exact absurd hperm.symm.eq_nil hl
  | cons h rest =>
    refine ⟨h, rest, rfl, ?_⟩
    intro s hsl
    have hmem : s ∈ h :: rest := by
      rw [← hs]
      exact ((List.perm_insertionSort effGe l).mem_iff).2 hsl
    rcases List.mem_cons.mp hmem with rfl | hmem2
    · exact le_refl _
    · rw [hs] at hsort
      exact (List.rel_of_sorted_cons hsort s hmem2 : effGe h s)

/-- One evaluation step never loses efficiency: the kept results after the
step dominate the kept results before it. -/
theorem better_evalStep (env : SearchEnv) (gps : GPSFun) (roundTrip : Bool)
    {numResults : ℕ} (fuel : ℕ) (hn : 1 ≤ numResults) (cd : ComboData)
    (st : EvalState) :
    Better st (evalStep env gps roundTrip numResults fuel cd st) := by
  intro s hs
  simp only [evalStep]
  split
  · exact ⟨s, hs, le_refl _⟩
  · rename_i r hroute
    split
    · rename_i hgt
      have hne : st.results ++
          [⟨cd.combo, r.actions, r.distance, cd.kp⟩] ≠ [] := by simp
      obtain ⟨h, rest, hsort, hmax⟩ := head_max_insertionSort _ hne
      refine ⟨h, ?_, hmax s (by simp [hs])⟩
      rw [hsort]
      match numResults, hn with
      | m + 1, _ => simp
    · exact ⟨s, by simp [hs], le_refl _⟩

/-- The exhaustive loop never loses efficiency. -/
theorem better_evalLoop_plain (env : SearchEnv) (gps : GPSFun)
    (roundTrip : Bool) {numResults : ℕ} (fuel : ℕ) (hn : 1 ≤ numResults) :
    ∀ (l : List ComboData) (st : EvalState),
      Better st (evalLoop env gps roundTrip numResults fuel none 1 l st) := by
  intro l
  induction l with
  | nil => intro st; exact better_rfl st
  | cons cd rest ih =>
    intro st
    rw [show evalLoop env gps roundTrip numResults fuel none 1
      (cd :: rest) st = evalLoop env gps roundTrip numResults fuel
        none 1 rest
        (evalStep env gps roundTrip numResults fuel cd st) from by
      simp [evalLoop, estBreak_exhaustive, evalBreak_exhaustive]]
    exact better_trans (better_evalStep env gps roundTrip fuel hn cd st)
      (ih _)

/-- C2 amended: on the same input, exhaustive mode (pruningThreshold = 1.0,
unbounded evaluations) returns a top Solution whose efficiency is at least
that of every Solution returned by any pruned mode — but it is not exact:
the worst-kept-distance threshold passed to `findBestRoute` can discard a
subset whose best route is longer yet more efficient (see the
counterexample). -/
theorem findBestBounties_exhaustive_ge_pruned (env : SearchEnv)
    (gps : GPSFun) (bounties : List BountyId) (roundTrip : Bool)
    (numResults : ℕ) (po : PruningOptions) (fuel : ℕ)
    (hn : 1 ≤ numResults) (s : BountyResult)
    (hs : s ∈ findBestBounties env gps bounties roundTrip numResults po
      fuel) :
    ∃ t, (findBestBounties env gps bounties roundTrip numResults
      exhaustivePO fuel).head? = some t ∧ effOf s ≤ effOf t := by
  simp only [findBestBounties] at hs ⊢
  have hsmem : s ∈ (evalLoop env gps roundTrip numResults fuel
      po.maxEvaluations po.pruningThreshold
      (((combinations bounties (min bounties.length 6)).map (fun c =>
        ComboData.mk c ((c.map (fun b => (env.data b).kp)).sum)
          (estimateMinDistance env c)
          (((c.map (fun b => (env.data b).kp)).sum) /
            estimateMinDistance env c))).insertionSort estGe)
      ⟨[], 0⟩).results :=
    ((List.perm_insertionSort effGe _).mem_iff).1 hs
  obtain ⟨l₁, l₂, hsplit, heq⟩ := evalLoop_eq_plain env gps roundTrip
    numResults fuel po.maxEvaluations po.pruningThreshold
    (((combinations bounties (min bounties.length 6)).map (fun c =>
      ComboData.mk c ((c.map (fun b => (env.data b).kp)).sum)
        (estimateMinDistance env c)
        (((c.map (fun b => (env.data b).kp)).sum) /
          estimateMinDistance env c))).insertionSort estGe)
    ⟨[], 0⟩
  rw [heq] at hsmem
  have hbetter : Better
      (evalLoop env gps roundTrip numResults fuel none 1 l₁ ⟨[], 0⟩)
      (evalLoop env gps roundTrip numResults fuel none 1
        (((combinations bounties (min bounties.length 6)).map (fun c =>
          ComboData.mk c ((c.map (fun b => (env.data b).kp)).sum)
            (estimateMinDistance env c)
            (((c.map (fun b => (env.data b).kp)).sum) /
              estimateMinDistance env c))).insertionSort estGe)
        ⟨[], 0⟩) := by
    rw [hsplit, evalLoop_plain_append]
    exact better_evalLoop_plain env gps roundTrip fuel hn l₂ _
  obtain ⟨t', ht', hle⟩ := hbetter s hsmem
  have hne : (evalLoop env gps roundTrip numResults fuel none 1
      (((combinations bounties (min bounties.length 6)).map (fun c =>
        ComboData.mk c ((c.map (fun b => (env.data b).kp)).sum)
          (estimateMinDistance env c)
          (((c.map (fun b => (env.data b).kp)).sum) /
            estimateMinDistance env c))).insertionSort estGe)
      ⟨[], 0⟩).results ≠ [] := by
    intro hnil
    rw [hnil] at ht'
    simp at ht'
  obtain ⟨h, rest, hsort, hmax⟩ := head_max_insertionSort _ hne
  refine ⟨h, ?_, le_trans hle (hmax t' ht')⟩
  rw [show exhaustivePO.maxEvaluations = none from rfl,
    show exhaustivePO.pruningThreshold = 1 from rfl, hsort]
  rfl

/-! ### Concrete instance for the combination selector (example 3)

Seven bounties: six "A" bounties traded entirely at market node 1
(kp 10 each) and one "Z" bounty traded entirely at market node 2 (kp 20).
Distances: depot-to-1 is 10, depot-to-2 is 13/2, 1-to-2 is 4 (a metric).
The all-A subset has the best estimated efficiency (one unique location)
and is evaluated first, with true time 40 and efficiency 1.5; every
Z-subset's best route takes 87/2 seconds — more than the 40-second
threshold inherited from the kept result — so it is discarded even though
its efficiency 70/(87/2) ≈ 1.61 beats 1.5. -/

def ex3Data : BountyId → BountyDef := fun b =>
  if b = "Z" then ⟨"Z", 20, mref 2 "MZ", mref 2 "MZ"⟩
  else if b = "A1" ∨ b = "A2" ∨ b = "A3" ∨ b = "A4" ∨ b = "A5" ∨ b = "A6"
    then ⟨"A", 10, mref 1 "MA", mref 1 "MA"⟩
  else dummyBounty

def ex3Gps : GPSFun := fun u v =>
  if u = v then ⟨0, [u]⟩
  else
    let d : ℚ :=
      match u, v with
      | 0, 1 => 10 | 1, 0 => 10
      | 0, 2 => 13 / 2 | 2, 0 => 13 / 2
      | 1, 2 => 4 | 2, 1 => 4
      | _, _ => 1000
    ⟨d, [u, v]⟩

def ex3Env : SearchEnv :=
  ⟨ex3Data, mref 0 "Bounty Board", ⟨98, "Crenopolis Market", 1⟩,
    ⟨99, "Crenopolis Outskirts", 1⟩⟩

def ex3Bounties : List BountyId :=
  ["A1", "A2", "A3", "A4", "A5", "A6", "Z"]

set_option maxRecDepth 40000 in
/-- C2 counterexample: exhaustive mode (`pruningThreshold = 1.0`,
unbounded evaluations, numResults = 1) returns the all-A Solution with
efficiency 60/40 = 1.5, although the size-6 subset containing Z is
completable in 87/2 seconds for 70 kp — efficiency 140/87 > 1.5.  The
subset was discarded because `findBestRoute` received the kept result's
distance 40 as threshold, so exhaustive mode is not exact. -/
theorem findBestBounties_exhaustive_not_exact :
    (findBestBounties ex3Env ex3Gps ex3Bounties false 1 exhaustivePO
      200).map (fun r => (r.bounties, r.distance, r.kp)) =
      [(["A1", "A2", "A3", "A4", "A5", "A6"], 40, 60)] ∧
    ["A1", "A2", "A3", "A4", "A5", "Z"] ∈ combinations ex3Bounties 6 ∧
    specPlanCompletes ex3Env ex3Gps ["A1", "A2", "A3", "A4", "A5", "Z"]
      [2, 2, 1, 1, 1] = true ∧
    specPlanTime ex3Env ex3Gps ["A1", "A2", "A3", "A4", "A5", "Z"]
      [2, 2, 1, 1, 1] false = 87 / 2 ∧
    ((10 + 10 + 10 + 10 + 10 + 20 : ℚ) / (87 / 2) > 60 / 40) := by
  refine ⟨?_, ?_, ?_, ?_, ?_⟩ <;> with_unfolding_all decide

/-- The Solution pruned mode keeps on `ex3`: the all-A subset. -/
def ex3PrunedResult : BountyResult :=
  ⟨["A1", "A2", "A3", "A4", "A5", "A6"],
    [⟨ActionType.buy, some "A1", "MA", 13⟩,
      ⟨ActionType.buy, some "A2", "MA", 13⟩,
      ⟨ActionType.buy, some "A3", "MA", 13⟩,
      ⟨ActionType.buy, some "A4", "MA", 13⟩,
      ⟨ActionType.sell, some "A1", "MA", 17⟩,
      ⟨ActionType.sell, some "A2", "MA", 21⟩,
      ⟨ActionType.sell, some "A3", "MA", 25⟩,
      ⟨ActionType.sell, some "A4", "MA", 29⟩,
      ⟨ActionType.buy, some "A5", "MA", 32⟩,
      ⟨ActionType.buy, some "A6", "MA", 32⟩,
      ⟨ActionType.sell, some "A5", "MA", 36⟩,
      ⟨ActionType.sell, some "A6", "MA", 40⟩],
    40, 60⟩

set_option maxRecDepth 40000 in
/-- Witness for the amended C2 at a concrete input: the Solution found by
default pruned mode on `ex3` (the all-A subset) is dominated by the head
of the exhaustive run. -/
theorem findBestBounties_exhaustive_ge_pruned_witness :
    ∃ t, (findBestBounties ex3Env ex3Gps ex3Bounties false 1 exhaustivePO
      200).head? = some t ∧ effOf ex3PrunedResult ≤ effOf t :=
  findBestBounties_exhaustive_ge_pruned ex3Env ex3Gps ex3Bounties false 1
    ⟨some 400, some 150, 95 / 100⟩ 200 (by norm_num) ex3PrunedResult
    (by with_unfolding_all decide)

/-! ### The reconciliation state machine (`OCRProcessor`)

The demo's `OCRProcessor` consumes one ObservationSnapshot per tick.  The
embedding models the post-OCR core of `processOCRResultsAsync` (the OCR
text parsing that produces `detectedActive` / `detectedBoard` is outside
the core), `launchFindBestIfNeeded` (which synchronously only records the
in-flight computation), and the asynchronous acceptance continuation of
the launched computation as a separate transition `completeFindBest`.
JS association objects with numeric keys iterate in ascending key order;
snapshots are therefore lists of (slot index, bounty id) pairs sorted by
index.  The several `Date.now()` calls within one pass are modelled as a
single instant `now`; `NaN` for `distanceSeconds` is `none`.  Logging,
file output and display-only fields (`displayKp`, `displaySteps`,
`displayDistanceSeconds`) are not modelled. -/

/-- A pending computation: `{ signature, startedAtMs }` (the promise
itself is modelled by the separate completion transition). -/
structure InFlightFind where
  signature : String
  startedAtMs : ℚ
deriving DecidableEq, Repr

/-- `FindBestResult` as consumed by the acceptance logic. -/
structure FindBestResult where
  bounties : List BountyId
  kp : ℚ
  actions : List Action
  distance : ℚ
deriving DecidableEq, Repr

structure SessionStats where
  totalBountiesCompleted : ℕ
  totalKpEarned : ℚ
  totalDurationSeconds : ℚ
deriving DecidableEq, Repr

/-- The `OCRProcessor` state touched by the reconciliation logic. -/
structure OCRState where
  activeBounties : List (ℕ × BountyId)
  boardBounties : List (ℕ × BountyId)
  activeDrops : List ℕ
  boardPickups : List ℕ
  steps : List Action
  kp : ℚ
  distanceSeconds : Option ℚ
  stepIdx : ℕ
  prevActiveBounties : List (ℕ × BountyId)
  prevOptimalBounties : List BountyId
  prevAllBountiesSignature : String
  prevBoardOpenSignature : Bool
  inFlightFind : Option InFlightFind
  launchedAtLeastOnce : Bool
  recentActiveAdds : List (ℕ × ℚ)
  runStartTime : ℚ
  actualRunTimeSeconds : ℚ
  runBounties : List BountyId
  runEstimatedTime : Option ℚ
  sessionStats : SessionStats
  dropGraceMs : ℚ
  suppressDropsWhileRecompute : Bool
  pathfinderWorkerTimeoutMs : ℚ
deriving Repr

/-- Values of an index-keyed object, in key order. -/
def valuesOf (m : List (ℕ × BountyId)) : List BountyId := m.map Prod.snd

/-- Keys of an index-keyed object. -/
def keysOf (m : List (ℕ × BountyId)) : List ℕ := m.map Prod.fst

/-- `Map.get` on the grace-window map. -/
def lookupIdx (m : List (ℕ × ℚ)) (i : ℕ) : Option ℚ :=
  (m.find? (fun p => p.1 = i)).map Prod.snd

/-- `Map.set` on the grace-window map (replace, else append). -/
def setIdx (m : List (ℕ × ℚ)) (i : ℕ) (v : ℚ) : List (ℕ × ℚ) :=
  if m.any (fun p => p.1 = i) then
    m.map (fun p => if p.1 = i then (i, v) else p)
  else m ++ [(i, v)]

/-- `makeAllBountiesSignature`: `allBounties.slice().sort().join('|')`. -/
def makeAllBountiesSignature (allBounties : List BountyId) : String :=
  String.intercalate "|" (sortBounties allBounties)

/-- `launchFindBestIfNeeded`: a duplicate trigger for the in-flight
signature is a no-op; a different signature is blocked unless the
in-flight computation is older than the worker timeout plus a 1000 ms
margin, in which case it is cleared and the new computation recorded. -/
def launchFindBestIfNeeded (s : OCRState) (now : ℚ) (signature : String) :
    OCRState :=
  match s.inFlightFind with
  | some f =>
    if f.signature = signature then s
    else if now - f.startedAtMs > s.pathfinderWorkerTimeoutMs + 1000 then
      { s with
        launchedAtLeastOnce := true
        inFlightFind := some ⟨signature, now⟩ }
    else s
  | none =>
    { s with
      launchedAtLeastOnce := true
      inFlightFind := some ⟨signature, now⟩ }

/-- Step filtering when accepting a new Solution mid-route: drop buy steps
for items already held, tracking holdings across the remaining steps. -/
def filterSteps : List Action → List BountyId → List Action
  | [], _ => []
  | st :: rest, held =>
    if st.type = ActionType.buy then
      match st.item with
      | some it =>
        if it ∈ held then filterSteps rest held
        else st :: filterSteps rest (if it ∈ held then held else it :: held)
      | none => st :: filterSteps rest held
    else if st.type = ActionType.sell then
      match st.item with
      | some it => st :: filterSteps rest (held.erase it)
      | none => st :: filterSteps rest held
    else st :: filterSteps rest held

/-- The set of currently held item types (`Object.values(activeBounties)`
inserted into a `Set`). -/
def heldSet (active : List (ℕ × BountyId)) : List BountyId :=
  (valuesOf active).foldl (fun acc b => if b ∈ acc then acc else b :: acc)
    []

/-- The cached Solution's efficiency as the acceptance rule computes it:
`kp / distanceSeconds` when a Solution is cached with positive distance,
else 0 (`NaN > 0` and `null > 0` are false in the source). -/
def currentEfficiencyOf (s : OCRState) : ℚ :=
  let dPos := match s.distanceSeconds with
    | some d => decide (0 < d)
    | none => false
  if s.prevOptimalBounties.length > 0 ∧ dPos = true then
    s.kp / (s.distanceSeconds.getD 0)
  else 0

/-- The asynchronous continuation of a launched computation: the
acceptance rule (strictly greater efficiency, or no current solution),
mid-route step pruning, the unconditional signature update, and the
in-flight clear. -/
def completeFindBest (s : OCRState) (signature : String)
    (res : FindBestResult) : OCRState :=
  let newEfficiency := res.kp / res.distance
  let s1 := if currentEfficiencyOf s = 0 ∨
      newEfficiency > currentEfficiencyOf s then
      let s1a := { s with
        prevOptimalBounties := res.bounties
        kp := res.kp
        distanceSeconds := some res.distance }
      if s.stepIdx > 0 ∧ res.actions.length > 0 then
        { s1a with
          steps := filterSteps res.actions (heldSet s.activeBounties)
          stepIdx := 0 }
      else { s1a with steps := res.actions }
    else s
  let s2 := { s1 with prevAllBountiesSignature := signature }
  { s2 with inFlightFind := match s2.inFlightFind with
    | some f => if f.signature = signature then none else some f
    | none => none }

/-- The `catch`/`finally` path of a failed computation: state kept, the
in-flight record cleared when it matches. -/
def failFindBest (s : OCRState) (signature : String) : OCRState :=
  { s with inFlightFind := match s.inFlightFind with
    | some f => if f.signature = signature then none else some f
    | none => none }

/-- First-occurrence-ordered distinct values (JS `Map` insertion order
when counting occurrences). -/
def dedupFirst (l : List BountyId) : List BountyId :=
  l.foldl (fun acc b => if b ∈ acc then acc else acc ++ [b]) []

/-- Which bounty type completed: the first previously held type (in
first-occurrence order) whose held count decreased. -/
def findCompleted (prevVals currVals : List BountyId) : Option BountyId :=
  (dedupFirst prevVals).find?
    (fun b => currVals.count b < prevVals.count b)

/-- Per-type grouping of held slot indices (`bountyIndices`), keyed in
first-occurrence order. -/
def addToGroup (g : List (BountyId × List ℕ)) (b : BountyId) (idx : ℕ) :
    List (BountyId × List ℕ) :=
  if g.any (fun p => p.1 = b) then
    g.map (fun p => if p.1 = b then (p.1, p.2 ++ [idx]) else p)
  else g ++ [(b, [idx])]

/-- The per-slot pass of the `activeDrops` loop: a held PUMPKIN outside
its grace window is emitted immediately; every other slot is grouped by
bounty type for the surplus pass. -/
def dropScan (raa : List (ℕ × ℚ)) (now : ℚ)
    (acc : List ℕ × List (BountyId × List ℕ)) (p : ℕ × BountyId) :
    List ℕ × List (BountyId × List ℕ) :=
  if p.2 = "PUMPKIN" then
    (match lookupIdx raa p.1 with
      | some e => if e ≤ now then acc.1 ++ [p.1] else acc.1
      | none => acc.1 ++ [p.1],
     acc.2)
  else (acc.1, addToGroup acc.2 p.2 p.1)

/-- The surplus-slot pass of the `activeDrops` loop: for one bounty
type's slot group, the lowest-indexed slots beyond the accepted
Solution's allowance are emitted, each exempt inside its grace window. -/
def dropEmit (raa : List (ℕ × ℚ)) (now : ℚ)
    (optimalBounties : List BountyId) (acc : List ℕ)
    (p : BountyId × List ℕ) : List ℕ :=
  let indices := p.2.insertionSort (fun a b => a ≤ b)
  let allowed := optimalBounties.count p.1
  if indices.length > allowed then
    acc ++ (indices.take (indices.length - allowed)).filter (fun idx =>
      match lookupIdx raa idx with
      | some e => decide (e ≤ now)
      | none => true)
  else acc

/-- The `activeDrops` derivation: a held PUMPKIN outside its grace window
is always dropped; for every other type, the lowest-indexed surplus slots
beyond what the accepted Solution calls for are dropped, each exempt
while inside its grace window. -/
def computeDrops (detectedActive : List (ℕ × BountyId))
    (optimalBounties : List BountyId) (raa : List (ℕ × ℚ)) (now : ℚ) :
    List ℕ :=
  let step1 := detectedActive.foldl (dropScan raa now) ([], [])
  step1.2.foldl (dropEmit raa now optimalBounties) step1.1

/-- `Map.set` on the pickup counter. -/
def setCount (m : List (BountyId × ℕ)) (b : BountyId) (v : ℕ) :
    List (BountyId × ℕ) :=
  if m.any (fun p => p.1 = b) then
    m.map (fun p => if p.1 = b then (b, v) else p)
  else m ++ [(b, v)]

/-- The `boardPickups` derivation: an offered slot is accepted when its
type appears in the accepted Solution more often than it is held plus
already marked for pickup; PUMPKIN is never accepted. -/
def computePickups (detectedBoard detectedActive : List (ℕ × BountyId))
    (optimalBounties : List BountyId) : List ℕ :=
  let sorted := detectedBoard.insertionSort (fun p q => p.1 ≤ q.1)
  (sorted.foldl (fun (acc : List ℕ × List (BountyId × ℕ)) p =>
    if p.2 = "PUMPKIN" then acc
    else if p.2 ∈ optimalBounties then
      let allowed := optimalBounties.count p.2
      let activeCount := (valuesOf detectedActive).count p.2
      let current := ((acc.2.find? (fun q => q.1 = p.2)).map Prod.snd).getD 0
      if activeCount + current < allowed then
        (acc.1 ++ [p.1], setCount acc.2 p.2 (current + 1))
      else acc
    else acc) ([], [])).1

/-- Grace-window bookkeeping at the top of a pass: newly appearing held
slots get an expiry stamp; expired or vanished entries are purged. -/
def snapshotGrace (s : OCRState) (detectedActive : List (ℕ × BountyId))
    (now : ℚ) : OCRState :=
  let prevActiveIndices := keysOf s.prevActiveBounties
  let currActiveIndices := keysOf detectedActive
  let raa1 := currActiveIndices.foldl (fun m idx =>
    if idx ∈ prevActiveIndices then m
    else setIdx m idx (now + s.dropGraceMs)) s.recentActiveAdds
  let raa2 := raa1.filter (fun p =>
    decide (now < p.2) && decide (p.1 ∈ currActiveIndices))
  { s with recentActiveAdds := raa2 }

/-- The run timer: board just closed, a run starts. -/
def snapshotRunTimer (s : OCRState) (boardOpen : Bool) (now : ℚ) :
    OCRState :=
  if boardOpen ≠ s.prevBoardOpenSignature ∧ boardOpen = false ∧
      s.prevBoardOpenSignature = true then
    { s with
      runStartTime := now
      actualRunTimeSeconds := 0
      runBounties := s.prevOptimalBounties
      runEstimatedTime := s.distanceSeconds }
  else s

/-- Whether this snapshot triggers a recomputation. -/
def shouldRecompute (s : OCRState)
    (detectedActive detectedBoard : List (ℕ × BountyId))
    (boardOpen : Bool) (signature : String) : Prop :=
  let boardTransition := boardOpen ≠ s.prevBoardOpenSignature
  let signatureChanged := signature ≠ s.prevAllBountiesSignature
  let firstRun := ¬ s.launchedAtLeastOnce
  let addingBounties := detectedActive.length > s.prevActiveBounties.length
  let boardBountiesChanged := boardOpen = true ∧
    sortBounties (valuesOf s.boardBounties) ≠
      sortBounties (valuesOf detectedBoard)
  let haveOptimal := s.prevOptimalBounties.length > 0
  let activeMatchesOptimal := sortBounties (valuesOf detectedActive) =
    sortBounties s.prevOptimalBounties
  let adjustingBounties := haveOptimal ∧ ¬ activeMatchesOptimal ∧
    boardOpen = true
  firstRun ∨ boardTransition ∨ boardBountiesChanged ∨
    (signatureChanged ∧ addingBounties ∧ ¬ adjustingBounties) ∨
    (activeMatchesOptimal ∧ signatureChanged)

instance (s : OCRState) (a b : List (ℕ × BountyId)) (o : Bool)
    (sig : String) : Decidable (shouldRecompute s a b o sig) := by
  unfold shouldRecompute
  infer_instance

/-- The trigger stage: maybe reset `stepIdx`, maybe launch, and record the
board-open flag when a recomputation was decided. -/
def snapshotTrigger (s : OCRState)
    (detectedActive detectedBoard : List (ℕ × BountyId))
    (boardOpen : Bool) (now : ℚ) (signature : String) : OCRState :=
  if shouldRecompute s detectedActive detectedBoard boardOpen signature
  then
    let firstRun := ¬ s.launchedAtLeastOnce
    let boardTransition := boardOpen ≠ s.prevBoardOpenSignature
    let s1 := if firstRun ∨ boardTransition then { s with stepIdx := 0 }
      else s
    let s2 := launchFindBestIfNeeded s1 now signature
    { s2 with prevBoardOpenSignature := boardOpen }
  else s

/-- Completed-bounty detection, session statistics and step pruning. -/
def snapshotCompletion (env : SearchEnv) (s : OCRState)
    (completedBounty : Option BountyId) (boardOpen : Bool) : OCRState :=
  match completedBounty with
  | some cb =>
    let s2a := if boardOpen = false then
        { s with sessionStats := ⟨
            s.sessionStats.totalBountiesCompleted + 1,
            s.sessionStats.totalKpEarned + (env.data cb).kp,
            s.sessionStats.totalDurationSeconds⟩ }
      else s
    match s2a.steps.findIdx? (fun st =>
        st.type = ActionType.sell ∧ st.item = some cb) with
    | some i =>
      { s2a with
        stepIdx := s2a.stepIdx + i + 1
        steps := s2a.steps.drop (i + 1) }
    | none => s2a
  | none => s

/-- The full-completion clear: run statistics are finalized and the
cached Solution (subset, kp, distance, steps) is reset. -/
def snapshotClear (s : OCRState) (now : ℚ) : OCRState :=
  let s3a := if 0 < s.runStartTime then
      { s with
        actualRunTimeSeconds := (now - s.runStartTime) / 1000
        sessionStats := ⟨s.sessionStats.totalBountiesCompleted,
          s.sessionStats.totalKpEarned,
          s.sessionStats.totalDurationSeconds +
            (now - s.runStartTime) / 1000⟩ }
    else s
  { s3a with
    prevOptimalBounties := []
    kp := 0
    distanceSeconds := none
    steps := []
    runBounties := []
    runEstimatedTime := some 0 }

/-- The slot-signal stage: drops (possibly globally suppressed while a
recomputation is in flight) and pickups. -/
def snapshotSignals (s : OCRState)
    (detectedActive detectedBoard : List (ℕ × BountyId))
    (boardOpen : Bool) (now : ℚ) (optimalBounties : List BountyId) :
    OCRState :=
  let s4 := if s.suppressDropsWhileRecompute = true ∧
      s.inFlightFind.isSome = true then
      { s with activeDrops := [] }
    else
      { s with activeDrops :=
          (computeDrops detectedActive optimalBounties s.recentActiveAdds
            now) }
  if boardOpen = true then
    { s4 with boardPickups :=
        (computePickups detectedBoard detectedActive optimalBounties) }
  else { s4 with boardPickups := [] }

/-- The tail of a reconciliation pass, after the trigger stage: the
no-optimal early return, completed-bounty step pruning and statistics,
the full-completion clear, the per-slot drop/accept signals, and the
final bookkeeping updates. -/
def snapshotRest (env : SearchEnv) (sB : OCRState)
    (detectedActive detectedBoard : List (ℕ × BountyId))
    (boardOpen : Bool) (now : ℚ) : OCRState :=
  if sB.prevOptimalBounties.length = 0 then
    { sB with
      activeDrops := []
      boardPickups := []
      activeBounties := detectedActive
      boardBounties := detectedBoard
      prevActiveBounties := detectedActive }
  else
    let optimalBounties := sB.prevOptimalBounties
    let prevCount := sB.prevActiveBounties.length
    let currCount := detectedActive.length
    let completedBounty : Option BountyId :=
      if prevCount > currCount ∧ prevCount - currCount = 1 then
        findCompleted (valuesOf sB.prevActiveBounties)
          (valuesOf detectedActive)
      else none
    let sC := snapshotCompletion env sB completedBounty boardOpen
    let sD := if currCount = 0 ∧ prevCount > 0 ∧
        completedBounty.isSome = true then snapshotClear sC now
      else sC
    let sE := snapshotSignals sD detectedActive detectedBoard boardOpen
      now optimalBounties
    { sE with
      activeBounties := detectedActive
      boardBounties := detectedBoard
      prevActiveBounties := detectedActive }

/-- One reconciliation pass over an ObservationSnapshot: grace-window
bookkeeping, the run timer, recomputation triggering, then the
completion/clear/signal stages of `snapshotRest`. -/
def processSnapshot (env : SearchEnv) (s : OCRState)
    (detectedActive detectedBoard : List (ℕ × BountyId))
    (boardOpen : Bool) (now : ℚ) : OCRState :=
  let sA := snapshotGrace s detectedActive now
  let allBounties := (valuesOf detectedActive ++
    valuesOf detectedBoard).filter (fun b => b ≠ "PUMPKIN")
  let signature := makeAllBountiesSignature allBounties
  let sB := snapshotTrigger (snapshotRunTimer sA boardOpen now)
    detectedActive detectedBoard boardOpen now signature
  snapshotRest env sB detectedActive detectedBoard boardOpen now

/-! ### C3: acceptance-rule monotonicity -/

/-- Well-formedness of the cached Solution as maintained by the
reconciliation loop: a nonempty cached subset, nonnegative KP, and a
present, positive distance. -/
def CachedOK (s : OCRState) : Prop :=
  s.prevOptimalBounties ≠ [] ∧ 0 ≤ s.kp ∧
  s.distanceSeconds.isSome = true ∧ 0 < s.distanceSeconds.getD 0

instance (s : OCRState) : Decidable (CachedOK s) := by
  unfold CachedOK
  infer_instance

/-- The cached Solution's efficiency, `kp / distanceSeconds`. -/
def cachedEff (s : OCRState) : ℚ := s.kp / s.distanceSeconds.getD 0

/-- Shape of every result `findBestBounties` hands to the acceptance
logic: a nonempty subset, nonnegative KP, positive distance. -/
def GoodResult (r : FindBestResult) : Prop :=
  r.bounties ≠ [] ∧ 0 ≤ r.kp ∧ 0 < r.distance

instance (r : FindBestResult) : Decidable (GoodResult r) := by
  unfold GoodResult
  infer_instance

/-- A sequence of recomputation completions folded over the state. -/
def completeRun (s : OCRState) (l : List (String × FindBestResult)) :
    OCRState :=
  l.foldl (fun t p => completeFindBest t p.1 p.2) s

lemma currentEfficiencyOf_eq (s : OCRState) (h : CachedOK s) :
    currentEfficiencyOf s = cachedEff s := by
  obtain ⟨h1, _h2, h3, h4⟩ := h
  obtain ⟨d, hd⟩ := Option.isSome_iff_exists.mp h3
  rw [hd] at h4
  simp only [Option.getD_some] at h4
  simp [currentEfficiencyOf, cachedEff, hd, h4, List.length_pos, h1]

lemma completeFindBest_step (s : OCRState) (sig : String)
    (r : FindBestResult) (hs : CachedOK s) (hr : GoodResult r) :
    CachedOK (completeFindBest s sig r) ∧
      cachedEff s ≤ cachedEff (completeFindBest s sig r) := by
  obtain ⟨hb, hkp, hrd⟩ := hr
  have heq := currentEfficiencyOf_eq s hs
  obtain ⟨h1, h2, h3, h4⟩ := hs
  by_cases hacc : currentEfficiencyOf s = 0 ∨
      r.kp / r.distance > currentEfficiencyOf s
  · have hfields :
        (completeFindBest s sig r).prevOptimalBounties = r.bounties ∧
        (completeFindBest s sig r).kp = r.kp ∧
        (completeFindBest s sig r).distanceSeconds = some r.distance := by
      simp only [completeFindBest]
      rw [if_pos hacc]
      split <;> exact ⟨rfl, rfl, rfl⟩
    obtain ⟨hf1, hf2, hf3⟩ := hfields
    have hle : cachedEff s ≤ r.kp / r.distance := by
      rcases hacc with h0 | hgt
      · rw [heq] at h0
        rw [h0]
        exact div_nonneg hkp (le_of_lt hrd)
      · rw [heq] at hgt
        exact le_of_lt hgt
    refine ⟨⟨?_, ?_, ?_, ?_⟩, ?_⟩
    · rw [hf1]; exact hb
    · rw [hf2]; exact hkp
    · rw [hf3]; rfl
    · rw [hf3]; simpa using hrd
    · unfold cachedEff
      rw [hf2, hf3]
      simpa using hle
  · have hfields :
        (completeFindBest s sig r).prevOptimalBounties =
          s.prevOptimalBounties ∧
        (completeFindBest s sig r).kp = s.kp ∧
        (completeFindBest s sig r).distanceSeconds = s.distanceSeconds := by
      simp only [completeFindBest]
      rw [if_neg hacc]
      exact ⟨rfl, rfl, rfl⟩
    obtain ⟨hf1, hf2, hf3⟩ := hfields
    refine ⟨⟨?_, ?_, ?_, ?_⟩, ?_⟩
    · rw [hf1]; exact h1
    · rw [hf2]; exact h2
    · rw [hf3]; exact h3
    · rw [hf3]; exact h4
    · unfold cachedEff
      rw [hf2, hf3]

/-- C3: the acceptance rule replaces the cached Solution only when the
new efficiency is strictly greater (or none is cached / the cached
efficiency is 0); consequently, across any sequence of recomputation
completions starting from a well-formed cached Solution, with every
delivered result well-shaped, the cached Solution stays well-formed and
its efficiency `kp / distanceSeconds` never decreases. -/
theorem completeFindBest_efficiency_monotone (s : OCRState)
    (l : List (String × FindBestResult)) (hs : CachedOK s)
    (hl : ∀ p ∈ l, GoodResult p.2) :
    CachedOK (completeRun s l) ∧
      cachedEff s ≤ cachedEff (completeRun s l) := by
  induction l generalizing s with
  | nil => exact ⟨hs, le_refl _⟩
  | cons p rest ih =>
    have hstep := completeFindBest_step s p.1 p.2 hs (hl p (by simp))
    have hrest := ih (completeFindBest s p.1 p.2) hstep.1
      (fun q hq => hl q (by simp [hq]))
    have hrun : completeRun s (p :: rest) =
        completeRun (completeFindBest s p.1 p.2) rest := rfl
    rw [hrun]
    exact ⟨hrest.1, le_trans hstep.2 hrest.2⟩

/-- A concrete OCRProcessor state used by the reconciliation witnesses. -/
def baseOCR : OCRState where
  activeBounties := []
  boardBounties := []
  activeDrops := []
  boardPickups := []
  steps := []
  kp := 0
  distanceSeconds := none
  stepIdx := 0
  prevActiveBounties := []
  prevOptimalBounties := []
  prevAllBountiesSignature := ""
  prevBoardOpenSignature := false
  inFlightFind := none
  launchedAtLeastOnce := false
  recentActiveAdds := []
  runStartTime := 0
  actualRunTimeSeconds := 0
  runBounties := []
  runEstimatedTime := none
  sessionStats := ⟨0, 0, 0⟩
  dropGraceMs := 10000
  suppressDropsWhileRecompute := false
  pathfinderWorkerTimeoutMs := 10000

/-- A cached Solution of efficiency 1 (kp 10 over 10 s). -/
def exC3State : OCRState :=
  { baseOCR with
    prevOptimalBounties := ["CUPS"]
    kp := 10
    distanceSeconds := some 10 }

/-- Two completions: one worse (efficiency 1/2, rejected), one better
(efficiency 3, accepted). -/
def exC3Runs : List (String × FindBestResult) :=
  [("a", ⟨["APPLES"], 5, [], 10⟩), ("b", ⟨["BONES"], 30, [], 10⟩)]

/-- Witness for C3 at a concrete input. -/
theorem completeFindBest_efficiency_monotone_witness :
    CachedOK (completeRun exC3State exC3Runs) ∧
      cachedEff exC3State ≤ cachedEff (completeRun exC3State exC3Runs) :=
  completeFindBest_efficiency_monotone exC3State exC3Runs
    (by with_unfolding_all decide)
    (by intro p hp; fin_cases hp <;> with_unfolding_all decide)

/-! ### Field bookkeeping across the reconciliation stages -/

lemma snapshotGrace_prevOptimal (s : OCRState)
    (da : List (ℕ × BountyId)) (now : ℚ) :
    (snapshotGrace s da now).prevOptimalBounties =
      s.prevOptimalBounties := rfl

lemma snapshotGrace_prevActive (s : OCRState)
    (da : List (ℕ × BountyId)) (now : ℚ) :
    (snapshotGrace s da now).prevActiveBounties =
      s.prevActiveBounties := rfl

lemma snapshotGrace_suppress (s : OCRState)
    (da : List (ℕ × BountyId)) (now : ℚ) :
    (snapshotGrace s da now).suppressDropsWhileRecompute =
      s.suppressDropsWhileRecompute := rfl

lemma snapshotRunTimer_prevOptimal (s : OCRState) (bo : Bool) (now : ℚ) :
    (snapshotRunTimer s bo now).prevOptimalBounties =
      s.prevOptimalBounties := by
  unfold snapshotRunTimer
  split_ifs <;> rfl

lemma snapshotRunTimer_prevActive (s : OCRState) (bo : Bool) (now : ℚ) :
    (snapshotRunTimer s bo now).prevActiveBounties =
      s.prevActiveBounties := by
  unfold snapshotRunTimer
  split_ifs <;> rfl

lemma snapshotRunTimer_suppress (s : OCRState) (bo : Bool) (now : ℚ) :
    (snapshotRunTimer s bo now).suppressDropsWhileRecompute =
      s.suppressDropsWhileRecompute := by
  unfold snapshotRunTimer
  split_ifs <;> rfl

lemma snapshotRunTimer_raa (s : OCRState) (bo : Bool) (now : ℚ) :
    (snapshotRunTimer s bo now).recentActiveAdds =
      s.recentActiveAdds := by
  unfold snapshotRunTimer
  split_ifs <;> rfl

lemma launchFindBest_prevOptimal (s : OCRState) (now : ℚ) (sig : String) :
    (launchFindBestIfNeeded s now sig).prevOptimalBounties =
      s.prevOptimalBounties := by
  unfold launchFindBestIfNeeded
  cases s.inFlightFind with
  | none => rfl
  | some f =>
    dsimp only
    split_ifs <;> rfl

lemma launchFindBest_prevActive (s : OCRState) (now : ℚ) (sig : String) :
    (launchFindBestIfNeeded s now sig).prevActiveBounties =
      s.prevActiveBounties := by
  unfold launchFindBestIfNeeded
  cases s.inFlightFind with
  | none => rfl
  | some f =>
    dsimp only
    split_ifs <;> rfl

lemma launchFindBest_suppress (s : OCRState) (now : ℚ) (sig : String) :
    (launchFindBestIfNeeded s now sig).suppressDropsWhileRecompute =
      s.suppressDropsWhileRecompute := by
  unfold launchFindBestIfNeeded
  cases s.inFlightFind with
  | none => rfl
  | some f =>
    dsimp only
    split_ifs <;> rfl

lemma launchFindBest_raa (s : OCRState) (now : ℚ) (sig : String) :
    (launchFindBestIfNeeded s now sig).recentActiveAdds =
      s.recentActiveAdds := by
  unfold launchFindBestIfNeeded
  cases s.inFlightFind with
  | none => rfl
  | some f =>
    dsimp only
    split_ifs <;> rfl

lemma snapshotTrigger_prevOptimal (s : OCRState)
    (da db : List (ℕ × BountyId)) (bo : Bool) (now : ℚ) (sig : String) :
    (snapshotTrigger s da db bo now sig).prevOptimalBounties =
      s.prevOptimalBounties := by
  simp only [snapshotTrigger]
  split_ifs <;> simp [launchFindBest_prevOptimal]

lemma snapshotTrigger_prevActive (s : OCRState)
    (da db : List (ℕ × BountyId)) (bo : Bool) (now : ℚ) (sig : String) :
    (snapshotTrigger s da db bo now sig).prevActiveBounties =
      s.prevActiveBounties := by
  simp only [snapshotTrigger]
  split_ifs <;> simp [launchFindBest_prevActive]

lemma snapshotTrigger_suppress (s : OCRState)
    (da db : List (ℕ × BountyId)) (bo : Bool) (now : ℚ) (sig : String) :
    (snapshotTrigger s da db bo now sig).suppressDropsWhileRecompute =
      s.suppressDropsWhileRecompute := by
  simp only [snapshotTrigger]
  split_ifs <;> simp [launchFindBest_suppress]

lemma snapshotTrigger_raa (s : OCRState)
    (da db : List (ℕ × BountyId)) (bo : Bool) (now : ℚ) (sig : String) :
    (snapshotTrigger s da db bo now sig).recentActiveAdds =
      s.recentActiveAdds := by
  simp only [snapshotTrigger]
  split_ifs <;> simp [launchFindBest_raa]

lemma snapshotCompletion_suppress (env : SearchEnv) (t : OCRState)
    (cb : Option BountyId) (bo : Bool) :
    (snapshotCompletion env t cb bo).suppressDropsWhileRecompute =
      t.suppressDropsWhileRecompute := by
  simp only [snapshotCompletion]
  cases cb with
  | none => rfl
  | some c =>
    (repeat' split)
    all_goals rfl

lemma snapshotCompletion_raa (env : SearchEnv) (t : OCRState)
    (cb : Option BountyId) (bo : Bool) :
    (snapshotCompletion env t cb bo).recentActiveAdds =
      t.recentActiveAdds := by
  simp only [snapshotCompletion]
  cases cb with
  | none => rfl
  | some c =>
    (repeat' split)
    all_goals rfl

lemma snapshotClear_suppress (t : OCRState) (now : ℚ) :
    (snapshotClear t now).suppressDropsWhileRecompute =
      t.suppressDropsWhileRecompute := by
  simp only [snapshotClear]
  split_ifs <;> rfl

lemma snapshotClear_raa (t : OCRState) (now : ℚ) :
    (snapshotClear t now).recentActiveAdds = t.recentActiveAdds := by
  simp only [snapshotClear]
  split_ifs <;> rfl

lemma snapshotClear_prevOptimal (t : OCRState) (now : ℚ) :
    (snapshotClear t now).prevOptimalBounties = [] := rfl

lemma snapshotClear_kp (t : OCRState) (now : ℚ) :
    (snapshotClear t now).kp = 0 := rfl

lemma snapshotClear_dist (t : OCRState) (now : ℚ) :
    (snapshotClear t now).distanceSeconds = none := rfl

lemma snapshotClear_steps (t : OCRState) (now : ℚ) :
    (snapshotClear t now).steps = [] := rfl

lemma signals_prevOptimal (u : OCRState) (da db : List (ℕ × BountyId))
    (bo : Bool) (now : ℚ) (ob : List BountyId) :
    (snapshotSignals u da db bo now ob).prevOptimalBounties =
      u.prevOptimalBounties := by
  simp only [snapshotSignals]
  split_ifs <;> rfl

lemma signals_kp (u : OCRState) (da db : List (ℕ × BountyId))
    (bo : Bool) (now : ℚ) (ob : List BountyId) :
    (snapshotSignals u da db bo now ob).kp = u.kp := by
  simp only [snapshotSignals]
  split_ifs <;> rfl

lemma signals_dist (u : OCRState) (da db : List (ℕ × BountyId))
    (bo : Bool) (now : ℚ) (ob : List BountyId) :
    (snapshotSignals u da db bo now ob).distanceSeconds =
      u.distanceSeconds := by
  simp only [snapshotSignals]
  split_ifs <;> rfl

lemma signals_steps (u : OCRState) (da db : List (ℕ × BountyId))
    (bo : Bool) (now : ℚ) (ob : List BountyId) :
    (snapshotSignals u da db bo now ob).steps = u.steps := by
  simp only [snapshotSignals]
  split_ifs <;> rfl

lemma mem_signals_drops (u : OCRState) (da db : List (ℕ × BountyId))
    (bo : Bool) (now : ℚ) (ob : List BountyId) (idx : ℕ)
    (hsup : u.suppressDropsWhileRecompute = false)
    (h : idx ∈ computeDrops da ob u.recentActiveAdds now) :
    idx ∈ (snapshotSignals u da db bo now ob).activeDrops := by
  simp only [snapshotSignals]
  split_ifs <;>
    first
      | exact h
      | (exfalso; simp_all)

/-! ### Membership facts for the drop derivation -/

lemma setIdx_mem (m : List (ℕ × ℚ)) (i : ℕ) (v : ℚ) (p : ℕ × ℚ)
    (hp : p ∈ setIdx m i v) : p ∈ m ∨ p = (i, v) := by
  unfold setIdx at hp
  split_ifs at hp with h
  · obtain ⟨q, hq, hqe⟩ := List.mem_map.mp hp
    by_cases hq1 : q.1 = i
    · right
      rw [if_pos hq1] at hqe
      exact hqe.symm
    · left
      rw [if_neg hq1] at hqe
      exact hqe ▸ hq
  · rcases List.mem_append.mp hp with h1 | h1
    · exact Or.inl h1
    · right
      simpa using h1

lemma foldl_setIdx_avoid (prevSet : List ℕ) (v : ℚ) (idx : ℕ)
    (hidx : idx ∈ prevSet) :
    ∀ (l : List ℕ) (m : List (ℕ × ℚ)), (∀ p ∈ m, p.1 ≠ idx) →
      ∀ p ∈ l.foldl
        (fun m i => if i ∈ prevSet then m else setIdx m i v) m,
        p.1 ≠ idx := by
  intro l
  induction l with
  | nil => intro m hm p hp; exact hm p hp
  | cons i rest ih =>
    intro m hm p hp
    rw [List.foldl_cons] at hp
    refine ih _ ?_ p hp
    intro q hq
    by_cases hi : i ∈ prevSet
    · rw [if_pos hi] at hq
      exact hm q hq
    · rw [if_neg hi] at hq
      rcases setIdx_mem m i v q hq with h1 | h1
      · exact hm q h1
      · rw [h1]
        intro hcon
        simp only at hcon
        cases hcon
        exact hi hidx

/-- After the grace-window bookkeeping, a slot that was already held in
the previous snapshot (and had no pending grace entry) carries no grace
stamp: new stamps are only written for newly appearing indices. -/
lemma grace_lookup_none (s : OCRState) (da : List (ℕ × BountyId))
    (now : ℚ) (idx : ℕ) (hraa : s.recentActiveAdds = [])
    (hprev : idx ∈ keysOf s.prevActiveBounties) :
    lookupIdx (snapshotGrace s da now).recentActiveAdds idx = none := by
  have hkey : ∀ p ∈ (snapshotGrace s da now).recentActiveAdds,
      p.1 ≠ idx := by
    intro p hp
    have hp2 : p ∈ ((keysOf da).foldl
        (fun m i => if i ∈ keysOf s.prevActiveBounties then m
          else setIdx m i (now + s.dropGraceMs))
        s.recentActiveAdds).filter
        (fun q => decide (now < q.2) && decide (q.1 ∈ keysOf da)) := hp
    have hp3 := (List.mem_filter.mp hp2).1
    refine foldl_setIdx_avoid (keysOf s.prevActiveBounties)
      (now + s.dropGraceMs) idx hprev (keysOf da) s.recentActiveAdds
      ?_ p hp3
    rw [hraa]
    intro q hq
    exact absurd hq (List.not_mem_nil q)
  simp only [lookupIdx]
  rw [List.find?_eq_none.mpr fun x hx => by simpa using hkey x hx]
  rfl

lemma dropScan_fst_mono (raa : List (ℕ × ℚ)) (now : ℚ)
    (acc : List ℕ × List (BountyId × List ℕ)) (p : ℕ × BountyId)
    (idx : ℕ) (h : idx ∈ acc.1) : idx ∈ (dropScan raa now acc p).1 := by
  unfold dropScan
  split_ifs with h1
  · rcases hl : lookupIdx raa p.1 with _ | e
    · simp only [hl]
      exact List.mem_append_left _ h
    · simp only [hl]
      split_ifs with h2
      · exact List.mem_append_left _ h
      · exact h
  · exact h

lemma foldl_dropScan_mono (raa : List (ℕ × ℚ)) (now : ℚ) (idx : ℕ) :
    ∀ (l : List (ℕ × BountyId))
      (acc : List ℕ × List (BountyId × List ℕ)), idx ∈ acc.1 →
      idx ∈ (l.foldl (dropScan raa now) acc).1 := by
  intro l
  induction l with
  | nil => intro acc h; exact h
  | cons p rest ih =>
    intro acc h
    rw [List.foldl_cons]
    exact ih _ (dropScan_fst_mono raa now acc p idx h)

lemma foldl_dropScan_mem (raa : List (ℕ × ℚ)) (now : ℚ) (idx : ℕ)
    (hlook : lookupIdx raa idx = none) :
    ∀ (l : List (ℕ × BountyId))
      (acc : List ℕ × List (BountyId × List ℕ)),
      (idx, "PUMPKIN") ∈ l → idx ∈ (l.foldl (dropScan raa now) acc).1 := by
  intro l
  induction l with
  | nil => intro acc h; exact absurd h (List.not_mem_nil _)
  | cons p rest ih =>
    intro acc hmem
    rw [List.foldl_cons]
    rcases List.mem_cons.mp hmem with he | ht
    · apply foldl_dropScan_mono
      rw [← he]
      simp [dropScan, hlook]
    · exact ih _ ht

lemma dropEmit_mono (raa : List (ℕ × ℚ)) (now : ℚ)
    (ob : List BountyId) (acc : List ℕ) (p : BountyId × List ℕ)
    (idx : ℕ) (h : idx ∈ acc) : idx ∈ dropEmit raa now ob acc p := by
  simp only [dropEmit]
  split_ifs with h1
  · exact List.mem_append_left _ h
  · exact h

lemma foldl_dropEmit_mono (raa : List (ℕ × ℚ)) (now : ℚ)
    (ob : List BountyId) (idx : ℕ) :
    ∀ (l : List (BountyId × List ℕ)) (acc : List ℕ), idx ∈ acc →
      idx ∈ l.foldl (dropEmit raa now ob) acc := by
  intro l
  induction l with
  | nil => intro acc h; exact h
  | cons p rest ih =>
    intro acc h
    rw [List.foldl_cons]
    exact ih _ (dropEmit_mono raa now ob acc p idx h)

/-- A held PUMPKIN slot outside its grace window is always in the
computed drop list, whatever the accepted Solution's subset. -/
lemma mem_computeDrops_pumpkin (da : List (ℕ × BountyId))
    (ob : List BountyId) (raa : List (ℕ × ℚ)) (now : ℚ) (idx : ℕ)
    (hmem : (idx, "PUMPKIN") ∈ da)
    (hlook : lookupIdx raa idx = none) :
    idx ∈ computeDrops da ob raa now := by
  simp only [computeDrops]
  apply foldl_dropEmit_mono
  exact foldl_dropScan_mem raa now idx hlook da ([], []) hmem

lemma snapshotRest_pumpkin (env : SearchEnv) (t : OCRState)
    (da db : List (ℕ × BountyId)) (bo : Bool) (now : ℚ) (idx : ℕ)
    (hopt : t.prevOptimalBounties ≠ [])
    (hsup : t.suppressDropsWhileRecompute = false)
    (hmem : (idx, "PUMPKIN") ∈ da)
    (hlook : lookupIdx t.recentActiveAdds idx = none) :
    idx ∈ (snapshotRest env t da db bo now).activeDrops := by
  have hne : ¬ t.prevOptimalBounties.length = 0 := by
    simpa [List.length_eq_zero] using hopt
  simp only [snapshotRest]
  rw [if_neg hne]
  split <;> split <;>
    (refine mem_signals_drops _ da db bo now _ idx ?_ ?_ <;>
      simp only [snapshotClear_suppress, snapshotCompletion_suppress,
        snapshotClear_raa, snapshotCompletion_raa] <;>
      first
        | exact hsup
        | exact mem_computeDrops_pumpkin da t.prevOptimalBounties
            t.recentActiveAdds now idx hmem hlook)

lemma findCompleted_single (j : ℕ) (b : BountyId) :
    findCompleted (valuesOf [(j, b)])
      (valuesOf ([] : List (ℕ × BountyId))) = some b := by
  show List.find? _ [b] = some b
  apply List.find?_cons_of_pos
  simp [valuesOf]

lemma snapshotRest_clear (env : SearchEnv) (t : OCRState)
    (db : List (ℕ × BountyId)) (bo : Bool) (now : ℚ) (j : ℕ)
    (b : BountyId) (hopt : t.prevOptimalBounties ≠ [])
    (hone : t.prevActiveBounties = [(j, b)]) :
    (snapshotRest env t [] db bo now).prevOptimalBounties = [] ∧
    (snapshotRest env t [] db bo now).kp = 0 ∧
    (snapshotRest env t [] db bo now).distanceSeconds = none ∧
    (snapshotRest env t [] db bo now).steps = [] := by
  have hne : ¬ t.prevOptimalBounties.length = 0 := by
    simpa [List.length_eq_zero] using hopt
  have hpos : t.prevActiveBounties.length > 0 := by
    rw [hone]
    exact Nat.one_pos
  have hc : t.prevActiveBounties.length >
        ([] : List (ℕ × BountyId)).length ∧
      t.prevActiveBounties.length -
        ([] : List (ℕ × BountyId)).length = 1 := by
    rw [hone]
    exact ⟨Nat.one_pos, rfl⟩
  have hcb : (if t.prevActiveBounties.length >
        ([] : List (ℕ × BountyId)).length ∧
        t.prevActiveBounties.length -
          ([] : List (ℕ × BountyId)).length = 1 then
      findCompleted (valuesOf t.prevActiveBounties)
        (valuesOf ([] : List (ℕ × BountyId)))
    else none) = some b := by
    rw [if_pos hc, hone]
    exact findCompleted_single j b
  have hcond : ([] : List (ℕ × BountyId)).length = 0 ∧
      t.prevActiveBounties.length > 0 ∧
      (some b).isSome = true := ⟨rfl, hpos, rfl⟩
  refine ⟨?_, ?_, ?_, ?_⟩ <;>
    (simp only [snapshotRest]
     rw [if_neg hne, hcb, if_pos hcond])
  · exact (signals_prevOptimal _ _ _ _ _ _).trans
      (snapshotClear_prevOptimal _ _)
  · exact (signals_kp _ _ _ _ _ _).trans (snapshotClear_kp _ _)
  · exact (signals_dist _ _ _ _ _ _).trans (snapshotClear_dist _ _)
  · exact (signals_steps _ _ _ _ _ _).trans (snapshotClear_steps _ _)

/-! ### C4: PUMPKIN drops and the no-Solution early return -/

/-- A state holding a PUMPKIN slot with no cached Solution: the early
return fires before the drop derivation. -/
def exC4State : OCRState :=
  { baseOCR with
    prevActiveBounties := [(0, "PUMPKIN")]
    launchedAtLeastOnce := true }

/-- C4 counterexample: with an empty accepted-Solution subset, a held
PUMPKIN slot outside any grace window is NOT signaled "drop" — the
no-optimal early return rewrites `activeDrops` to `[]` before the
PUMPKIN special case can run, contradicting "always signaled drop
regardless of the Solution, even if the accepted Solution subset is
empty". -/
theorem processSnapshot_pumpkin_not_dropped :
    exC4State.prevOptimalBounties = [] ∧
    exC4State.recentActiveAdds = [] ∧
    (0, "PUMPKIN") ∈ ([(0, "PUMPKIN")] : List (ℕ × BountyId)) ∧
    (processSnapshot ex1Env exC4State [(0, "PUMPKIN")] [] false
      1000).activeDrops = [] := by
  with_unfolding_all decide

/-- C4 (amended): when a Solution IS cached (nonempty subset), drop
suppression is off, and the held PUMPKIN slot was already present in the
previous snapshot with no pending grace stamp, the slot is signaled
"drop" whatever the Solution's contents. -/
theorem processSnapshot_pumpkin_drop (env : SearchEnv) (s : OCRState)
    (da db : List (ℕ × BountyId)) (bo : Bool) (now : ℚ) (idx : ℕ)
    (hopt : s.prevOptimalBounties ≠ [])
    (hsup : s.suppressDropsWhileRecompute = false)
    (hmem : (idx, "PUMPKIN") ∈ da)
    (hraa : s.recentActiveAdds = [])
    (hprev : idx ∈ keysOf s.prevActiveBounties) :
    idx ∈ (processSnapshot env s da db bo now).activeDrops := by
  simp only [processSnapshot]
  exact snapshotRest_pumpkin env _ da db bo now idx
    (by rw [snapshotTrigger_prevOptimal, snapshotRunTimer_prevOptimal,
          snapshotGrace_prevOptimal]
        exact hopt)
    (by rw [snapshotTrigger_suppress, snapshotRunTimer_suppress,
          snapshotGrace_suppress]
        exact hsup)
    hmem
    (by rw [snapshotTrigger_raa, snapshotRunTimer_raa]
        exact grace_lookup_none s da now idx hraa hprev)

/-- The C4 witness state: one held PUMPKIN slot and a cached Solution. -/
def exC4Good : OCRState :=
  { baseOCR with
    prevOptimalBounties := ["CUPS"]
    prevActiveBounties := [(0, "PUMPKIN")] }

/-- Witness for the amended C4 at a concrete input. -/
theorem processSnapshot_pumpkin_drop_witness :
    0 ∈ (processSnapshot ex1Env exC4Good [(0, "PUMPKIN")] [] false
      1000).activeDrops :=
  processSnapshot_pumpkin_drop ex1Env exC4Good [(0, "PUMPKIN")] [] false
    1000 0 (by with_unfolding_all decide) rfl
    (by with_unfolding_all decide) rfl (by with_unfolding_all decide)

/-! ### C8: the full-completion clear -/

/-- A state holding two CUPS slots with a cached two-CUPS Solution. -/
def exC8State : OCRState :=
  { baseOCR with
    prevActiveBounties := [(0, "CUPS"), (1, "CUPS")]
    prevOptimalBounties := ["CUPS", "CUPS"]
    kp := 10
    distanceSeconds := some 5
    launchedAtLeastOnce := true }

/-- C8 counterexample: both held slots disappear in the same snapshot
(2 → 0), a full completion, yet the cached Solution is NOT cleared —
completion detection requires the count to fall by exactly 1, so
`completedBounty` stays unset and the clear at the zero transition is
skipped. -/
theorem processSnapshot_full_clear_fails :
    exC8State.prevActiveBounties.length = 2 ∧
    exC8State.prevOptimalBounties ≠ [] ∧
    (processSnapshot ex1Env exC8State [] [] false
      1000).prevOptimalBounties = ["CUPS", "CUPS"] ∧
    (processSnapshot ex1Env exC8State [] [] false 1000).kp = 10 := by
  with_unfolding_all decide

/-- C8 (amended): when the held count reaches zero by losing exactly one
slot (a single held slot disappears), the cached Solution is cleared:
subset emptied, kp reset to 0, distance reset, steps emptied. -/
theorem processSnapshot_full_clear (env : SearchEnv) (s : OCRState)
    (db : List (ℕ × BountyId)) (bo : Bool) (now : ℚ) (j : ℕ)
    (b : BountyId) (hopt : s.prevOptimalBounties ≠ [])
    (hone : s.prevActiveBounties = [(j, b)]) :
    (processSnapshot env s [] db bo now).prevOptimalBounties = [] ∧
    (processSnapshot env s [] db bo now).kp = 0 ∧
    (processSnapshot env s [] db bo now).distanceSeconds = none ∧
    (processSnapshot env s [] db bo now).steps = [] := by
  simp only [processSnapshot]
  exact snapshotRest_clear env _ db bo now j b
    (by rw [snapshotTrigger_prevOptimal, snapshotRunTimer_prevOptimal,
          snapshotGrace_prevOptimal]
        exact hopt)
    (by rw [snapshotTrigger_prevActive, snapshotRunTimer_prevActive,
          snapshotGrace_prevActive]
        exact hone)

/-- The C8 witness state: one held CUPS slot and a cached Solution. -/
def exC8Good : OCRState :=
  { baseOCR with
    prevActiveBounties := [(0, "CUPS")]
    prevOptimalBounties := ["CUPS"]
    kp := 10
    distanceSeconds := some 5 }

/-- Witness for the amended C8 at a concrete input. -/
theorem processSnapshot_full_clear_witness :
    (processSnapshot ex1Env exC8Good [] [] false
      1000).prevOptimalBounties = [] ∧
    (processSnapshot ex1Env exC8Good [] [] false 1000).kp = 0 ∧
    (processSnapshot ex1Env exC8Good [] [] false
      1000).distanceSeconds = none ∧
    (processSnapshot ex1Env exC8Good [] [] false 1000).steps = [] :=
  processSnapshot_full_clear ex1Env exC8Good [] false 1000 0 "CUPS"
    (by with_unfolding_all decide) rfl

/-! ### C9: single in-flight computation -/

lemma completeFindBest_inFlight (s : OCRState) (sig : String)
    (r : FindBestResult) :
    (completeFindBest s sig r).inFlightFind =
      match s.inFlightFind with
      | some f => if f.signature = sig then none else some f
      | none => none := by
  simp only [completeFindBest]
  split_ifs <;> rfl

/-- C9: at most one computation is ever tracked in flight (the in-flight
record is a single Option-valued slot); a trigger whose signature equals
the in-flight one is a no-op; a younger in-flight computation blocks any
trigger with a different signature; an in-flight computation older than
the worker timeout plus the 1000 ms margin is cleared and the new
trigger records itself; and a completion carrying the in-flight
signature empties the slot. -/
theorem launchFindBest_single_flight (s : OCRState) (now : ℚ)
    (sig : String) (f : InFlightFind) (r : FindBestResult) :
    (s.inFlightFind = some f → f.signature = sig →
      launchFindBestIfNeeded s now sig = s) ∧
    (s.inFlightFind = some f → f.signature ≠ sig →
      now - f.startedAtMs ≤ s.pathfinderWorkerTimeoutMs + 1000 →
      launchFindBestIfNeeded s now sig = s) ∧
    (s.inFlightFind = some f → f.signature ≠ sig →
      now - f.startedAtMs > s.pathfinderWorkerTimeoutMs + 1000 →
      (launchFindBestIfNeeded s now sig).inFlightFind =
        some ⟨sig, now⟩) ∧
    (s.inFlightFind = none →
      (launchFindBestIfNeeded s now sig).inFlightFind =
        some ⟨sig, now⟩) ∧
    (s.inFlightFind = some f → f.signature = sig →
      (completeFindBest s sig r).inFlightFind = none) := by
  refine ⟨?_, ?_, ?_, ?_, ?_⟩
  · intro hf heq
    simp only [launchFindBestIfNeeded, hf]
    rw [if_pos heq]
  · intro hf hne hage
    simp only [launchFindBestIfNeeded, hf]
    rw [if_neg hne, if_neg (not_lt.mpr hage)]
  · intro hf hne hage
    simp only [launchFindBestIfNeeded, hf]
    rw [if_neg hne, if_pos hage]
  · intro hf
    simp only [launchFindBestIfNeeded, hf]
  · intro hf heq
    rw [completeFindBest_inFlight, hf]
    simp [heq]

/-- A state with an in-flight computation for signature `a`, started at
time 0 (worker timeout 10000 ms). -/
def exC9State : OCRState := { baseOCR with inFlightFind := some ⟨"a", 0⟩ }

/-- A result delivered to the acceptance logic in the C9 witness. -/
def exC9Res : FindBestResult := ⟨["CUPS"], 1, [], 1⟩

/-- Witness for C9 at concrete inputs: the same-signature no-op, the
young-blocker no-op, the stale retry, the fresh launch, and the
completion clear. -/
theorem launchFindBest_single_flight_witness :
    launchFindBestIfNeeded exC9State 5 "a" = exC9State ∧
    launchFindBestIfNeeded exC9State 5 "b" = exC9State ∧
    (launchFindBestIfNeeded exC9State 20000 "b").inFlightFind =
      some ⟨"b", 20000⟩ ∧
    (launchFindBestIfNeeded baseOCR 5 "a").inFlightFind =
      some ⟨"a", 5⟩ ∧
    (completeFindBest exC9State "a" exC9Res).inFlightFind = none := by
  refine ⟨?_, ?_, ?_, ?_, ?_⟩
  · exact (launchFindBest_single_flight exC9State 5 "a" ⟨"a", 0⟩
      exC9Res).1 rfl rfl
  · exact (launchFindBest_single_flight exC9State 5 "b" ⟨"a", 0⟩
      exC9Res).2.1 rfl (by with_unfolding_all decide)
      (by with_unfolding_all decide)
  · exact (launchFindBest_single_flight exC9State 20000 "b" ⟨"a", 0⟩
      exC9Res).2.2.1 rfl (by with_unfolding_all decide)
      (by with_unfolding_all decide)
  · exact (launchFindBest_single_flight baseOCR 5 "a" ⟨"a", 0⟩
      exC9Res).2.2.2.1 rfl
  · exact (launchFindBest_single_flight exC9State 5 "a" ⟨"a", 0⟩
      exC9Res).2.2.2.2 rfl rfl

end BrighterMerchant
